import Mathlib

/-!
Verification of the antgen geometry-perturbation optimizer core.

This file gives a shallow embedding (over ℝ) of the central data model and
algorithms of the antgen repository:

* vector / segment geometry and the segment-distance test
  (`lib/geometry.go`: `Vec3`, `Line`, `Distance`, `CheckDistances`, `Regions`),
* the self-intersection repair (`lib/antenna.go`: `FixGeometry`, `BuildAntenna`),
* the curvature limit (`lib/generator.go`: `BendMax`) and the bounded random
  walk generator (`GenStroll.Nodes`),
* the comparator value function (`Comparator.value`),
* the track log and its replay (`lib/track.go`: `Changes`, `TrackList.Nodes`),
* the bend2d optimizer loop (`cmd/antgen/model_bend2D.go`: `optBend`,
  `checkGeometry`, `Prepare`), modelled as a step function driven by an
  oracle stream that supplies the random draws and evaluator results.

Go float64 arithmetic is modelled by ℝ; Go ints by ℤ (or ℕ where the source
value is a count or list index that is provably non-negative).
-/

open scoped Classical

/-! ### Global constants (src/unnamed/part_026 and the `Cfg` defaults) -/

/-- Lower bound for non-zero floats (`eps = 1e-9`). -/
noncomputable def eps : ℝ := 1e-9

/-- Right angle (`RectAng = math.Pi / 2`). -/
noncomputable def RectAng : ℝ := Real.pi / 2

/-- Full circle (`CircAng = 2 * math.Pi`). -/
noncomputable def CircAng : ℝ := 2 * Real.pi

/-- Largest finite float64 (`math.MaxFloat64`), used by `Line.Distance` as
the "no relevant distance" marker. -/
noncomputable def maxFloat64 : ℝ := 2 ^ (1024 : ℕ) - 2 ^ (971 : ℕ)

/-- `IsNull` returns true if number is zero within tolerance. -/
def IsNull (f : ℝ) : Prop := |f| < eps

/-- `InRange` returns true if value v is in range `[lo, hi]` (with
tolerance). -/
def InRange (v lo hi : ℝ) : Prop := v - lo > -eps ∧ hi - v > -eps

/-- Go `math.Mod(x, y)`: remainder with the sign of the dividend
(`x - y*trunc(x/y)`); truncation is toward zero. -/
noncomputable def goMod (x y : ℝ) : ℝ :=
  x - y * (if 0 ≤ x / y then (⌊x / y⌋ : ℝ) else (⌈x / y⌉ : ℝ))

/-- `Cfg.Sim.MaxRounds` default. -/
def cfgMaxRounds : ℕ := 5

/-- `Cfg.Sim.MinZr` default. -/
noncomputable def cfgMinZr : ℝ := 1

/-- `Cfg.Sim.MaxZr` default. -/
noncomputable def cfgMaxZr : ℝ := 20000

/-- `Cfg.Sim.MinChange` default. -/
noncomputable def cfgMinChange : ℝ := 0.001

/-- `Cfg.Sim.ProgressCheck` default. -/
def cfgProgressCheck : ℕ := 10

/-- `Cfg.Sim.MinBend` default. -/
noncomputable def cfgMinBend : ℝ := 0.01

/-- `Cfg.Sim.MinRadius` default. -/
noncomputable def cfgMinRadius : ℝ := 0.02

/-! ### Vectors (lib/geometry.go `Vec3`) -/

/-- 3D vector (Go `Vec3 [3]float64`; index 0/1/2 written as x/y/z). -/
structure Vec3 where
  x : ℝ
  y : ℝ
  z : ℝ

/-- Length of the vector. -/
noncomputable def Vec3.length (v : Vec3) : ℝ :=
  Real.sqrt (v.x * v.x + v.y * v.y + v.z * v.z)

/-- Add two vectors. -/
def Vec3.add (v u : Vec3) : Vec3 := ⟨v.x + u.x, v.y + u.y, v.z + u.z⟩

/-- Subtract two vectors. -/
def Vec3.sub (v u : Vec3) : Vec3 := ⟨v.x - u.x, v.y - u.y, v.z - u.z⟩

/-- Multiplication of a vector with a scalar k. -/
def Vec3.mult (v : Vec3) (k : ℝ) : Vec3 := ⟨k * v.x, k * v.y, k * v.z⟩

/-- The negative vector. -/
def Vec3.neg (v : Vec3) : Vec3 := ⟨-v.x, -v.y, -v.z⟩

/-- Cross product between two vectors. -/
def Vec3.prod (v u : Vec3) : Vec3 :=
  ⟨v.y * u.z - v.z * u.y, v.z * u.x - v.x * u.z, v.x * u.y - v.y * u.x⟩

/-- Dot product between two vectors. -/
def Vec3.dot (v u : Vec3) : ℝ := v.x * u.x + v.y * u.y + v.z * u.z

/-- Two vectors are equal if their difference has null length. -/
noncomputable def Vec3.equals (v u : Vec3) : Prop := IsNull (v.sub u).length

/-- Move a vector in the XY plane by distance r at angle a. -/
noncomputable def Vec3.move2D (v : Vec3) (r a : ℝ) : Vec3 :=
  ⟨v.x + r * Real.cos a, v.y + r * Real.sin a, v.z⟩

/-- Mirror the vector at the YZ plane (negate x). -/
def Vec3.mirrorX (v : Vec3) : Vec3 := ⟨-v.x, v.y, v.z⟩

/-! ### Nodes (lib/geometry.go `Node`) -/

/-- One joint of a leg: segment length, azimuth turn `Theta`, elevation turn
`Phi` (Go `lib.Node`).  The 2-D build path (`BuildAntenna` via `Polar`)
uses `(length, theta)` only. -/
structure Node where
  length : ℝ
  theta : ℝ
  phi : ℝ

instance : Inhabited Node := ⟨⟨0, 0, 0⟩⟩

/-! ### Segments and distances (lib/antenna.go `Segment`, lib/geometry.go `Line`) -/

/-- A straight piece of wire with wire diameter (Go `Segment`); the field
`endp` models the Go field `end` (a reserved word in Lean). -/
structure Seg where
  start : Vec3
  endp : Vec3
  dia : ℝ

instance : Inhabited Seg := ⟨⟨⟨0, 0, 0⟩, ⟨0, 0, 0⟩, 0⟩⟩

/-- Direction of the segment (`end - start`). -/
def Seg.dir (s : Seg) : Vec3 := s.endp.sub s.start

/-- Length of the segment. -/
noncomputable def Seg.len (s : Seg) : ℝ := s.dir.length

/-- Distance between two segments (`Line.Distance`): `MaxFloat64` when the
segments share a joint, are too far apart (midpoint test) or are parallel;
otherwise the (signed) distance along the common normal. -/
noncomputable def Seg.distance (li lj : Seg) : ℝ :=
  if li.start.equals lj.endp ∨ li.endp.equals lj.start then maxFloat64
  else if ((li.start.add (li.dir.mult 0.5)).sub (lj.start.add (lj.dir.mult 0.5))).length >
      (li.dir.length + lj.dir.length) / 2 then maxFloat64
  else if ¬IsNull (li.dir.prod lj.dir).length then
    (li.dir.prod lj.dir).dot ((lj.start.sub li.start).neg) / (li.dir.prod lj.dir).length
  else maxFloat64

/-- `CheckDistances`: indices `j` of segments that come closer than `minD`
to an earlier segment `i` with index distance `j - i > 10` (only the higher
index is reported; emitted in loop order: outer `i` ascending, inner `j`
ascending). -/
noncomputable def checkDistances (segs : List Seg) (minD : ℝ) : List ℤ :=
  (List.range segs.length).flatMap fun i =>
    (List.range segs.length).filterMap fun j =>
      if i < j ∧ Seg.distance (segs.getD i default) (segs.getD j default) < minD ∧
          j - i > 10 then
        some (j : ℤ)
      else none

/-! ### Regions (lib/geometry.go `Regions`) -/

/-- Ascending insertion sort on ℤ; models the `sort.Slice(pos, ...)` call
in `Regions` (ascending by `<`). -/
def insSortI : List ℤ → List ℤ
  | [] => []
  | a :: rest => insertAsc a (insSortI rest)
where
  insertAsc (a : ℤ) : List ℤ → List ℤ
    | [] => [a]
    | b :: bs => if a ≤ b then a :: b :: bs else b :: insertAsc a bs

/-- The merge loop of `Regions` over the sorted tail, carrying `start` and
`last`; the final region is appended only when `last != start` (exactly as
in the source). -/
def regionsAux (start last : ℤ) : List ℤ → List (ℤ × ℤ)
  | [] => if last ≠ start then [(start, last)] else []
  | idx :: rest =>
    if idx = last then regionsAux start last rest
    else if idx = last + 1 then regionsAux start idx rest
    else (start, last) :: regionsAux idx idx rest

/-- `Regions` condenses a list of indices into regions (sort, then merge
adjacent/equal indices). -/
def regions (pos : List ℤ) : List (ℤ × ℤ) :=
  match insSortI pos with
  | [] => []
  | p :: rest => regionsAux p p rest

/-! ### Self-intersection repair (lib/antenna.go `FixGeometry`) -/

/-- Number of segments involved in avoiding wire intersections. -/
def Bulge : ℤ := 100

/-- Apply the z-offset of one region `[r.1, r.2]` widened by `Bulge` on each
side (clamped to `[1, len-1]`): ramp up over the leading margin, hold `minD`
across the region, ramp down over the trailing margin. -/
noncomputable def fixRegion (minD : ℝ) (segs : List Seg) (r : ℤ × ℤ) : List Seg :=
  let rs := max 1 (r.1 - Bulge)
  let re := min ((segs.length : ℤ) - 1) (r.2 + Bulge)
  let step := minD / ((max (r.1 - rs) (re - r.2) : ℤ) : ℝ)
  segs.mapIdx fun i s =>
    if rs ≤ (i : ℤ) ∧ (i : ℤ) ≤ re then
      if (i : ℤ) < r.1 then
        let dz := minD - ((r.1 - (i : ℤ) : ℤ) : ℝ) * step
        { s with start := { s.start with z := s.start.z + dz },
                 endp := { s.endp with z := s.endp.z + dz + step } }
      else if (i : ℤ) > r.2 then
        let dz := minD - (((i : ℤ) - r.2 : ℤ) : ℝ) * step
        { s with start := { s.start with z := s.start.z + dz + step },
                 endp := { s.endp with z := s.endp.z + dz } }
      else
        { s with start := { s.start with z := s.start.z + minD },
                 endp := { s.endp with z := s.endp.z + minD } }
    else s

/-- `FixGeometry`: condense the too-close indices into regions and push each
(widened) region out of the simulation plane. -/
noncomputable def fixGeometry (segs : List Seg) (minD : ℝ) : List Seg :=
  (regions (checkDistances segs minD)).foldl (fixRegion minD) segs

/-! ### Building the antenna (lib/antenna.go `BuildAntenna`) -/

/-- The segment pairs produced by the `BuildAntenna` loop: for each node the
primary segment `(pos, end)` and the mirrored segment
`(end.MirrorX(), pos.MirrorX())`, walking the direction/length chain. -/
noncomputable def walkSegs (dia : ℝ) : Vec3 → ℝ → List Node → List Seg
  | _, _, [] => []
  | pos, dir, n :: rest =>
    let dir2 := dir + n.theta
    let e := pos.move2D n.length dir2
    ⟨pos, e, dia⟩ :: ⟨e.mirrorX, pos.mirrorX, dia⟩ :: walkSegs dia e dir2 rest

/-- `BuildAntenna` before the repair pass: the feed segment
`(pos.MirrorX(), pos)` followed by the walk's primary/mirror pairs, with
`pos = (d/2, 0, groundH)` and `d` the first node's length. -/
noncomputable def buildAntennaRaw (dia groundH : ℝ) (nodes : List Node) : List Seg :=
  let d := (nodes.headD default).length
  let pos0 : Vec3 := ⟨d / 2, 0, groundH⟩
  ⟨pos0.mirrorX, pos0, dia⟩ :: walkSegs dia pos0 0 nodes

/-- `BuildAntenna`: raw build followed by `FixGeometry(2*d)`. -/
noncomputable def buildAntenna (dia groundH : ℝ) (nodes : List Node) : List Seg :=
  fixGeometry (buildAntennaRaw dia groundH nodes)
    (2 * (nodes.headD default).length)

/-- A segment `q` is the mirrored counterpart of `p` when its endpoint pair
is the x-negated copy of `p`'s endpoint pair (in either orientation). -/
def isMirrorCounterpart (p q : Seg) : Prop :=
  (q.start = p.start.mirrorX ∧ q.endp = p.endp.mirrorX) ∨
  (q.start = p.endp.mirrorX ∧ q.endp = p.start.mirrorX)

/-! ### Curvature limit (lib/generator.go `BendMax`) -/

/-- `BendMax`: max bending angle between two segments of length `segL` such
that the resulting curve has minimum radius `r`. -/
noncomputable def BendMax (r segL : ℝ) : ℝ :=
  let U := CircAng * r
  let n := ⌈U / segL⌉
  Real.pi / (n : ℝ)

/-! ### Comparator (src/unnamed/part_018 `Comparator.value`) -/

/-- Antenna gain statistics (Go `Gain`). -/
structure GainS where
  gmax : ℝ
  mean : ℝ
  sd : ℝ

/-- Antenna performance: gain statistics and feed impedance (Go
`Performance`; the radiation-pattern grid is not used by the standard
evaluator switch and is omitted). -/
structure Performance where
  gain : GainS
  Z : ℂ

/-- Standing wave ratio at source impedance `Zs`. -/
noncomputable def Performance.swr (p : Performance) (Zs : ℂ) : ℝ :=
  let g := Complex.abs ((p.Z - Zs) / (p.Z + Zs))
  (1 + g) / (1 - g)

/-- Loss (in dB) of transferring power to an unmatched antenna. -/
noncomputable def Performance.loss (p : Performance) (Zs : ℂ) : ℝ :=
  let s := p.swr Zs
  10 * Real.logb 10 (4 * s / ((s + 1) * (s + 1)))

/-- Power factor (in dB) of a matched antenna. -/
noncomputable def Performance.attenuation (p : Performance) : ℝ :=
  10 * Real.logb 10 (p.Z.re / Complex.abs p.Z)

/-- Virtual loss (in dB) due to antenna reactance. -/
noncomputable def Performance.resonance (p : Performance) : ℝ :=
  Real.logb 10 (1 / (1 + p.Z.im * p.Z.im))

/-- The built-in optimization targets of `Comparator.value` (switch on
`cmp.targets[cmp.pos]`). -/
inductive CTarget | Gmax | Gmean | SD | Z | none

/-- `Comparator.value`: the standard evaluation of a performance for a
target with a mode argument string; higher is better.  The unknown-argument
branches `log.Fatalf` in Go (abort); they are mapped to 0 and never used. -/
noncomputable def comparatorValue (tgt : CTarget) (args : String) (p : Performance)
    (feedZ : ℂ) : ℝ :=
  match tgt with
  | .Gmax =>
    if args = "" ∨ args = "raw" then p.gain.gmax
    else if args = "unmatched" then p.loss feedZ + p.gain.gmax
    else if args = "matched" then p.attenuation + p.gain.gmax
    else if args = "resonant" then p.resonance + p.gain.gmax
    else 0
  | .Gmean =>
    if args = "" ∨ args = "raw" then p.gain.mean
    else if args = "unmatched" then p.loss feedZ + p.gain.mean
    else if args = "matched" then p.attenuation + p.gain.mean
    else if args = "resonant" then p.resonance + p.gain.mean
    else 0
  | .SD => -p.gain.sd
  | .Z => p.loss feedZ
  | .none => 0

/-! ### Track log (lib/track.go) -/

/-- One recorded perturbation (Go `Change`); `pos` is a Go `int` and may
hold the sentinels `TRK_MARK = -1`, `TRK_SHORT = -2`, `TRK_LENGTH = -3`. -/
structure Change where
  pos : ℤ
  theta : ℝ
  phi : ℝ

/-- `Changes(nodes)`: record `(index, theta, phi)` for every node whose
angles are not both null, positions starting at `k`. -/
noncomputable def changesAux (k : ℕ) : List Node → List Change
  | [] => []
  | n :: rest =>
    if ¬IsNull n.theta ∨ ¬IsNull n.phi then
      ⟨(k : ℤ), n.theta, n.phi⟩ :: changesAux (k + 1) rest
    else changesAux (k + 1) rest

/-- `Changes(nodes)` with positions starting at 0. -/
noncomputable def changes (nodes : List Node) : List Change := changesAux 0 nodes

/-- Persisted track log (Go `TrackList`; comments/wire/height omitted). -/
structure TrackList where
  segL : ℝ
  num : ℕ
  track : List Change

/-- Apply one recorded change to the node list: skip `Pos == -1`; the array
access `nodes[chg.Pos]` is modelled as `none` (Go panic) when the index is
outside `[0, len)`. -/
noncomputable def applyChange (nodes : List Node) (chg : Change) : Option (List Node) :=
  if chg.pos = -1 then some nodes
  else if 0 ≤ chg.pos ∧ chg.pos < (nodes.length : ℤ) then
    let k := chg.pos.toNat
    let n := nodes.getD k default
    some (nodes.set k ⟨n.length, n.theta + chg.theta, n.phi + chg.phi⟩)
  else none

/-- `TrackList.Nodes()`: start from `Num` straight nodes of length `SegL`
and apply every recorded change in order. -/
noncomputable def TrackList.nodesOpt (tl : TrackList) : Option (List Node) :=
  List.foldlM applyChange (List.replicate tl.num (⟨tl.segL, 0, 0⟩ : Node)) tl.track

/-! ### Bounded random walk generator (lib/generator.go `GenStroll.Nodes`) -/

/-- The loop body of `GenStroll.Nodes` (no smoothing parameter, i.e. the
default `smooth=0` path).  `us i` is the `rnd.Float64()` draw of step `i`;
`dir` is the accumulated direction (mod `CircAng`), `x` the tracked
cumulative x-projection (note: after a correction the stale `xn` computed
from the uncorrected angle is kept, exactly as in the source). -/
noncomputable def strollAux (segL bendMax : ℝ) (us : ℕ → ℝ) :
    ℕ → ℕ → ℝ → ℝ → List Node
  | 0, _, _, _ => []
  | Nat.succ m, i, dir, x =>
    let ang := 2 * (us i - 0.5) * bendMax
    let xn := x + segL * Real.cos (dir + ang)
    let ang2 :=
      if xn < 4 * segL ∧ InRange dir RectAng (3 * RectAng) then
        let mDir := 3 * segL / (xn - segL) * Real.pi / 6
        let cDir := dir - Real.pi
        if cDir < 0 then -(mDir - cDir) else mDir - cDir
      else ang
    ⟨segL, ang2, 0⟩ ::
      strollAux segL bendMax us m (i + 1) (goMod (CircAng + dir + ang2) CircAng) xn

/-- `GenStroll.Nodes(num, segL, rnd)` for wavelength `lambda`:
`bendMax = BendMax(Cfg.Sim.MinRadius*lambda, segL)`, walk from
`dir = 0, x = 0`. -/
noncomputable def strollNodes (lambda : ℝ) (num : ℕ) (segL : ℝ) (us : ℕ → ℝ) :
    List Node :=
  strollAux segL (BendMax (cfgMinRadius * lambda) segL) us num 0 0 0

/-! ### The bend2d optimizer (cmd/antgen/model_bend2D.go) -/

/-- `ModelBend2D.checkGeometry` walk: positions must keep
`end[0] >= d/2`. -/
noncomputable def checkGeomAux (d : ℝ) : Vec3 → ℝ → List Node → Prop
  | _, _, [] => True
  | pos, dir, n :: rest =>
    let dir2 := goMod (dir + n.theta) CircAng
    let e := pos.move2D n.length dir2
    if e.x < d / 2 then False else checkGeomAux d e dir2 rest

/-- `ModelBend2D.checkGeometry`: leg bounded to x-coordinates at least
`d/2`, starting from `(d/2, 0, 0)` with `d` the first node's length. -/
noncomputable def checkGeometry (nodes : List Node) : Prop :=
  let d := (nodes.headD default).length
  checkGeomAux d ⟨d / 2, 0, 0⟩ 0 nodes

/-- Model parameters fixed at `Init` time: number of nodes per leg,
segment length and the bending angles. -/
structure MParams where
  num : ℕ
  segL : ℝ
  bendMin : ℝ
  bendMax : ℝ
  bendStep : ℝ

/-- Oracle input of one `optBend` iteration: the joint draw
(`rnd.Intn(num)`), the `rnd.Float64()` draw for the delta angle, and the
external evaluator's results for the perturbed geometry (feed resistance
`real(Z)` and the comparator's `Value` of the new performance). -/
structure OIn where
  posDraw : ℕ
  u : ℝ
  zr : ℝ
  val : ℝ

/-- Mutable state of one `optBend` run. `bestVal` is the comparator value
of the best performance (`cmp.Value(mdl.best.Perf)`), `lastVal` is the Go
`lastVal` (`NaN` modelled as `none`), `pos` the pending joint (`-1`
modelled as `none`). -/
structure MState where
  nodes : List Node
  bestNodes : List Node
  bestVal : ℝ
  track : List Change
  pos : Option ℕ
  steps : ℕ
  tries : ℕ
  maxTries : ℕ
  lastVal : Option ℝ

/-- Loop exits of `optBend`: the four `break` sites. -/
inductive Reason | diverged | exhausted | iterCap | converged

/-- Outcome of one loop iteration: continue with a new state, or break. -/
inductive StepOut
  | next (s : MState) : StepOut
  | stop (r : Reason) (s : MState) : StepOut

/-- One iteration of the `optBend` loop.  Branches in source order:
pick pending/drawn joint; draw delta `dw`; skip when `|dw| < bendMin` or
the joint's total angle would exceed `bendMax`; apply the delta and revert
when `checkGeometry` fails; otherwise evaluate: break `diverged` when the
feed resistance leaves `[MinZr, MaxZr]`; increment `tries` and break
`exhausted` above `maxTries + num*MaxRounds`; on improvement
(`Compare` sign 1, i.e. value gain above `eps`) record the change, count
the step, break `iterCap` when the iteration cap is hit, run the progress
check every `ProgressCheck` accepted steps (break `converged` if the value
improved less than `MinChange` since the last check, else roll
`lastVal`/`maxTries` and clear `tries`); on rejection revert the delta and
clear the pending joint. -/
noncomputable def optStep (P : MParams) (iter : ℕ) (s : MState) (o : OIn) : StepOut :=
  let p := s.pos.getD o.posDraw
  let dw := 2 * (o.u - 0.5) * P.bendStep
  if |dw| < P.bendMin then .next { s with pos := none }
  else
    let nd := s.nodes.getD p default
    if |nd.theta + dw| > P.bendMax then .next { s with pos := none }
    else
      let nodes2 := s.nodes.set p ⟨nd.length, nd.theta + dw, nd.phi⟩
      if ¬checkGeometry nodes2 then .next { s with pos := none }
      else if o.zr < cfgMinZr ∨ o.zr > cfgMaxZr then
        .stop .diverged { s with nodes := nodes2, pos := some p }
      else if s.tries + 1 > s.maxTries + P.num * cfgMaxRounds then
        .stop .exhausted { s with nodes := nodes2, tries := s.tries + 1, pos := some p }
      else if o.val - s.bestVal > eps then
        let st := s.steps + 1
        let tr := s.track ++ [⟨(p : ℤ), dw, 0⟩]
        if iter = st then
          .stop .iterCap { s with
            nodes := nodes2
            bestNodes := nodes2
            bestVal := o.val
            track := tr
            steps := st
            tries := s.tries + 1
            pos := some p }
        else if st % cfgProgressCheck = 0 then
          match s.lastVal with
          | some lv =>
            if o.val - lv < cfgMinChange then
              .stop .converged { s with
                nodes := nodes2
                bestNodes := nodes2
                bestVal := o.val
                track := tr
                steps := st
                tries := s.tries + 1
                pos := some p }
            else
              .next { s with
                nodes := nodes2
                bestNodes := nodes2
                bestVal := o.val
                track := tr
                steps := st
                lastVal := some o.val
                maxTries := max s.maxTries (s.tries + 1)
                tries := 0
                pos := some p }
          | none =>
            .next { s with
              nodes := nodes2
              bestNodes := nodes2
              bestVal := o.val
              track := tr
              steps := st
              lastVal := some o.val
              maxTries := max s.maxTries (s.tries + 1)
              tries := 0
              pos := some p }
        else
          .next { s with
            nodes := nodes2
            bestNodes := nodes2
            bestVal := o.val
            track := tr
            steps := st
            tries := s.tries + 1
            pos := some p }
      else .next { s with tries := s.tries + 1, pos := none }

/-- Result of a bounded run of the loop: a break with its reason, or fuel
exhaustion (the Go loop is unbounded; `fuel` many iterations are
unrolled). -/
inductive RunRes
  | out (r : Reason) (s : MState) : RunRes
  | fuel (s : MState) : RunRes

/-- The state carried by a run result. -/
def RunRes.state : RunRes → MState
  | .out _ s => s
  | .fuel s => s

/-- Run the `optBend` loop for at most `fuel` iterations, reading oracle
inputs `os i, os (i+1), ...`. -/
noncomputable def runOpt (P : MParams) (iter : ℕ) (os : ℕ → OIn) :
    ℕ → ℕ → MState → RunRes
  | 0, _, s => .fuel s
  | Nat.succ n, i, s =>
    match optStep P iter s (os i) with
    | .next s2 => runOpt P iter os n (i + 1) s2
    | .stop r s2 => .out r s2

/-- `ModelBend2D.Prepare`: initial geometry from the generator, track
folded from the initial geometry followed by the `TRK_MARK` sentinel;
`v0` is the comparator value of the initial performance. -/
noncomputable def prepState (init : List Node) (v0 : ℝ) : MState :=
  { nodes := init, bestNodes := init, bestVal := v0,
    track := changes init ++ [⟨-1, 0, 0⟩], pos := none,
    steps := 0, tries := 0, maxTries := 0, lastVal := none }

/-! ### Proof infrastructure and concrete example data -/

/-- The index pairs `(i, j)` with `i < j` and `j - i > 10` of a list of
length `n`, in the loop order of `CheckDistances` (proof helper: these are
the only pairs whose distance can be reported). -/
def gapPairs (n : ℕ) : List (ℕ × ℕ) :=
  (List.range n).flatMap fun i =>
    (List.range n).filterMap fun j =>
      if i < j ∧ j - i > 10 then some (i, j) else none

/-- The break reason of a run result (`none` when the fuel ran out). -/
def RunRes.reasonOpt : RunRes → Option Reason
  | .out r _ => some r
  | .fuel _ => none

/-- C1 counterexample geometry: 12 unit segments.  Segment 0 lies on the
x-axis, segments 1..10 are far away (y = 5), segment 11 crosses segment 0
perpendicularly at height z = 1/2.  The clearance `minD = 2` is twice the
first segment's length. -/
noncomputable def exC1 : List Seg :=
  [⟨⟨0, 0, 0⟩, ⟨1, 0, 0⟩, 1⟩,
   ⟨⟨1, 5, 0⟩, ⟨2, 5, 0⟩, 1⟩,
   ⟨⟨2, 5, 0⟩, ⟨3, 5, 0⟩, 1⟩,
   ⟨⟨3, 5, 0⟩, ⟨4, 5, 0⟩, 1⟩,
   ⟨⟨4, 5, 0⟩, ⟨5, 5, 0⟩, 1⟩,
   ⟨⟨5, 5, 0⟩, ⟨6, 5, 0⟩, 1⟩,
   ⟨⟨6, 5, 0⟩, ⟨7, 5, 0⟩, 1⟩,
   ⟨⟨7, 5, 0⟩, ⟨8, 5, 0⟩, 1⟩,
   ⟨⟨8, 5, 0⟩, ⟨9, 5, 0⟩, 1⟩,
   ⟨⟨9, 5, 0⟩, ⟨10, 5, 0⟩, 1⟩,
   ⟨⟨10, 5, 0⟩, ⟨11, 5, 0⟩, 1⟩,
   ⟨⟨1/2, -(1/2), 1/2⟩, ⟨1/2, 1/2, 1/2⟩, 1⟩]

/-- C4 counterexample leg: six unit nodes whose walk runs along the x-axis,
turns up and back, and descends onto the feed point
(directions 0, 0, π/2, π, π, -π/2). -/
noncomputable def exC4nodes : List Node :=
  [⟨1, 0, 0⟩, ⟨1, 0, 0⟩, ⟨1, Real.pi / 2, 0⟩, ⟨1, Real.pi / 2, 0⟩,
   ⟨1, 0, 0⟩, ⟨1, -(3 * Real.pi / 2), 0⟩]

/-- The raw (pre-repair) segment list of `buildAntennaRaw 1 0 exC4nodes`. -/
noncomputable def exC4raw : List Seg :=
  [⟨⟨-(1/2), 0, 0⟩, ⟨1/2, 0, 0⟩, 1⟩,
   ⟨⟨1/2, 0, 0⟩, ⟨3/2, 0, 0⟩, 1⟩,
   ⟨⟨-(3/2), 0, 0⟩, ⟨-(1/2), 0, 0⟩, 1⟩,
   ⟨⟨3/2, 0, 0⟩, ⟨5/2, 0, 0⟩, 1⟩,
   ⟨⟨-(5/2), 0, 0⟩, ⟨-(3/2), 0, 0⟩, 1⟩,
   ⟨⟨5/2, 0, 0⟩, ⟨5/2, 1, 0⟩, 1⟩,
   ⟨⟨-(5/2), 1, 0⟩, ⟨-(5/2), 0, 0⟩, 1⟩,
   ⟨⟨5/2, 1, 0⟩, ⟨3/2, 1, 0⟩, 1⟩,
   ⟨⟨-(3/2), 1, 0⟩, ⟨-(5/2), 1, 0⟩, 1⟩,
   ⟨⟨3/2, 1, 0⟩, ⟨1/2, 1, 0⟩, 1⟩,
   ⟨⟨-(1/2), 1, 0⟩, ⟨-(3/2), 1, 0⟩, 1⟩,
   ⟨⟨1/2, 1, 0⟩, ⟨1/2, 0, 0⟩, 1⟩,
   ⟨⟨-(1/2), 0, 0⟩, ⟨-(1/2), 1, 0⟩, 1⟩]

/-- The repaired segment list `fixGeometry exC4raw 2` (region `[11,12]`,
ramp step `1/5` over indices 1..10, hold `+2` at 11 and 12). -/
noncomputable def exC4fixed : List Seg :=
  [⟨⟨-(1/2), 0, 0⟩, ⟨1/2, 0, 0⟩, 1⟩,
   ⟨⟨1/2, 0, 0⟩, ⟨3/2, 0, 1/5⟩, 1⟩,
   ⟨⟨-(3/2), 0, 1/5⟩, ⟨-(1/2), 0, 2/5⟩, 1⟩,
   ⟨⟨3/2, 0, 2/5⟩, ⟨5/2, 0, 3/5⟩, 1⟩,
   ⟨⟨-(5/2), 0, 3/5⟩, ⟨-(3/2), 0, 4/5⟩, 1⟩,
   ⟨⟨5/2, 0, 4/5⟩, ⟨5/2, 1, 1⟩, 1⟩,
   ⟨⟨-(5/2), 1, 1⟩, ⟨-(5/2), 0, 6/5⟩, 1⟩,
   ⟨⟨5/2, 1, 6/5⟩, ⟨3/2, 1, 7/5⟩, 1⟩,
   ⟨⟨-(3/2), 1, 7/5⟩, ⟨-(5/2), 1, 8/5⟩, 1⟩,
   ⟨⟨3/2, 1, 8/5⟩, ⟨1/2, 1, 9/5⟩, 1⟩,
   ⟨⟨-(1/2), 1, 9/5⟩, ⟨-(3/2), 1, 2⟩, 1⟩,
   ⟨⟨1/2, 1, 2⟩, ⟨1/2, 0, 2⟩, 1⟩,
   ⟨⟨-(1/2), 0, 2⟩, ⟨-(1/2), 1, 2⟩, 1⟩]

/-- Parameters of the small counterexample runs: one joint, unit segment
length, `bendMax = 1`, `bendMin = 0.01`, `bendStep = 1/3`. -/
noncomputable def exP1 : MParams := ⟨1, 1, 0.01, 1, 1/3⟩

/-- Parameters of the C7 counterexample run: three joints. -/
noncomputable def exP3 : MParams := ⟨3, 1, 0.01, 1, 1/3⟩

/-- C2 counterexample initial leg: one node with a tiny but non-zero angle
(below the `IsNull` threshold), as a volatile generator may produce. -/
noncomputable def exC2init : List Node := [⟨1, 1e-10, 0⟩]

/-- C2 counterexample oracle: joint 0, `u = 0.95` (delta `+0.3`), feed
resistance `0.5` (diverges), value 0. -/
noncomputable def exC2os : ℕ → OIn := fun _ => ⟨0, 0.95, 0.5, 0⟩

/-- C2 counterexample run: a single iteration that diverges. -/
noncomputable def exC2run : RunRes := runOpt exP1 0 exC2os 1 0 (prepState exC2init 0)

/-- C6 counterexample oracle: joint 0, `u = 0.95` (delta `+0.3`), feed
resistance 50, value 1 (accepted). -/
noncomputable def exC6o : OIn := ⟨0, 0.95, 50, 1⟩

/-- C7 counterexample initial leg: three straight unit nodes. -/
noncomputable def exC7init : List Node := [⟨1, 0, 0⟩, ⟨1, 0, 0⟩, ⟨1, 0, 0⟩]

/-- C7 counterexample oracle: ten accepted steps on joint 0 with deltas
`+0.1` and values `2e-9 * (i+1)` (each gain `2e-9` exceeds the comparator
epsilon but the cumulative gain stays far below `MinChange`), then an
eleventh evaluation with delta `-0.1` whose feed resistance `0.5`
diverges. -/
noncomputable def exC7os : ℕ → OIn := fun i =>
  if i < 10 then ⟨0, 0.65, 50, ((i : ℝ) + 1) * 2e-9⟩ else ⟨0, 0.35, 0.5, 0⟩

/-- C7 counterexample run: eleven iterations. -/
noncomputable def exC7run : RunRes := runOpt exP3 0 exC7os 11 0 (prepState exC7init 0)

/-- C9 counterexample random stream: every `rnd.Float64()` draw equals
`(π/2 - 1e-9)/π + 1/2`, so every delta angle is `π/2 - 1e-9` (just inside
`bendMax = π/2`, and the walk direction stays just outside the corrected
inward half-circle). -/
noncomputable def exC9us : ℕ → ℝ := fun _ => (Real.pi / 2 - 1e-9) / Real.pi + 1/2

/-- C9 counterexample leg: two stroll nodes for wavelength 100 and segment
length 2π (so that `bendMax = π/2`). -/
noncomputable def exC9nodes : List Node := strollNodes 100 2 (2 * Real.pi) exC9us

/-- C8 example performance: mean gain 1. -/
noncomputable def exC8perf : Performance := ⟨⟨3, 1, 2⟩, 50⟩

/-- C10 witness track list: two nodes, single entry with the `TRK_SHORT`
sentinel position `-2`. -/
noncomputable def exC10tl : TrackList := ⟨1, 2, [⟨-2, 0, 0⟩]⟩

/-- The state carried by a step outcome. -/
def StepOut.state : StepOut → MState
  | .next s => s
  | .stop _ s => s

/-- Whether a step outcome continues the loop. -/
def StepOut.continues : StepOut → Prop
  | .next _ => True
  | .stop _ _ => False

/-- The state of the C7 counterexample run after `k ≤ 9` iterations: `k`
accepted steps on joint 0 (thetas `k * 0.1`), best value `k * 2e-9`,
the `tries` counter at `k`. -/
noncomputable def c7state (k : ℕ) : MState :=
  { nodes := [⟨1, (k : ℝ) * 0.1, 0⟩, ⟨1, 0, 0⟩, ⟨1, 0, 0⟩]
    bestNodes := [⟨1, (k : ℝ) * 0.1, 0⟩, ⟨1, 0, 0⟩, ⟨1, 0, 0⟩]
    bestVal := (k : ℝ) * 2e-9
    track := ⟨-1, 0, 0⟩ :: List.replicate k ⟨0, 0.1, 0⟩
    pos := if k = 0 then none else some 0
    steps := k
    tries := k
    maxTries := 0
    lastVal := none }

/-- The state of the C7 counterexample run after the tenth accepted step:
the first progress-check boundary only records `lastVal` (no convergence
test), rolls `maxTries` to 10 and clears `tries`. -/
noncomputable def c7s10 : MState :=
  { nodes := [⟨1, 1, 0⟩, ⟨1, 0, 0⟩, ⟨1, 0, 0⟩]
    bestNodes := [⟨1, 1, 0⟩, ⟨1, 0, 0⟩, ⟨1, 0, 0⟩]
    bestVal := 2e-8
    track := ⟨-1, 0, 0⟩ :: List.replicate 10 ⟨0, 0.1, 0⟩
    pos := some 0
    steps := 10
    tries := 0
    maxTries := 10
    lastVal := some 2e-8 }

/-- The final state of the C7 counterexample run: the eleventh evaluation
diverges (only the working nodes changed; best is untouched). -/
noncomputable def c7div : MState :=
  { c7s10 with nodes := [⟨1, 0.9, 0⟩, ⟨1, 0, 0⟩, ⟨1, 0, 0⟩], pos := some 0 }

/-- Run invariant of the bend2d optimizer used for the track round-trip:
the track replays to the best nodes, the working nodes equal the best
nodes, the leg size and segment lengths are fixed, and any pending joint
is in range. -/
noncomputable def C2Inv (P : MParams) (s : MState) : Prop :=
  List.foldlM applyChange (List.replicate P.num (⟨P.segL, 0, 0⟩ : Node)) s.track =
    some s.bestNodes ∧
  s.nodes = s.bestNodes ∧
  s.nodes.length = P.num ∧
  (∀ n ∈ s.nodes, n.length = P.segL) ∧
  (∀ q, s.pos = some q → q < P.num)

/-- The accumulated (mod `CircAng`) walk directions of a leg, as computed
by `ModelBend2D.checkGeometry`, starting from direction `dir`. -/
noncomputable def dirsOf : ℝ → List Node → List ℝ
  | _, [] => []
  | dir, n :: rest => goMod (dir + n.theta) CircAng ::
      dirsOf (goMod (dir + n.theta) CircAng) rest

/-- The break reason of a step outcome (`none` when the loop continues). -/
def StepOut.reasonOpt : StepOut → Option Reason
  | .next _ => none
  | .stop r _ => some r

/-- The replay property alone (holds at break states, where the working
nodes may differ from the best nodes). -/
noncomputable def C2Post (P : MParams) (s : MState) : Prop :=
  List.foldlM applyChange (List.replicate P.num (⟨P.segL, 0, 0⟩ : Node)) s.track =
    some s.bestNodes

/-! ### Generic evaluation helpers -/

theorem vec3_equals_iff (v u : Vec3) : v.equals u ↔
    (v.x - u.x) * (v.x - u.x) + (v.y - u.y) * (v.y - u.y) + (v.z - u.z) * (v.z - u.z)
      < 1e-18 := by
  unfold Vec3.equals IsNull Vec3.length Vec3.sub eps
  rw [abs_of_nonneg (Real.sqrt_nonneg _), Real.sqrt_lt' (by norm_num)]
  norm_num

theorem maxFloat64_ge_two : (2 : ℝ) ≤ maxFloat64 := by
  unfold maxFloat64
  norm_num

theorem distance_core (li lj : Seg)
    (h1 : ¬li.start.equals lj.endp) (h2 : ¬li.endp.equals lj.start)
    (h3 : ((li.start.add (li.dir.mult 0.5)).sub (lj.start.add (lj.dir.mult 0.5))).length ≤
      (li.dir.length + lj.dir.length) / 2)
    (h4 : ¬IsNull (li.dir.prod lj.dir).length) :
    Seg.distance li lj =
      (li.dir.prod lj.dir).dot ((lj.start.sub li.start).neg) / (li.dir.prod lj.dir).length := by
  unfold Seg.distance
  rw [if_neg (not_or.mpr ⟨h1, h2⟩), if_neg (not_lt.mpr h3), if_pos h4]

theorem distance_far (li lj : Seg)
    (h1 : ¬li.start.equals lj.endp) (h2 : ¬li.endp.equals lj.start)
    (h3 : ((li.start.add (li.dir.mult 0.5)).sub (lj.start.add (lj.dir.mult 0.5))).length >
      (li.dir.length + lj.dir.length) / 2) :
    Seg.distance li lj = maxFloat64 := by
  unfold Seg.distance
  rw [if_neg (not_or.mpr ⟨h1, h2⟩), if_pos h3]

theorem checkDistances_eq_gapPairs (segs : List Seg) (minD : ℝ) :
    checkDistances segs minD = (gapPairs segs.length).filterMap fun p =>
      if Seg.distance (segs.getD p.1 default) (segs.getD p.2 default) < minD
      then some ((p.2 : ℕ) : ℤ) else none := by
  unfold checkDistances gapPairs
  rw [List.filterMap_flatMap]
  congr 1
  funext i
  rw [List.filterMap_filterMap]
  congr 1
  funext j
  by_cases hij : i < j
  · by_cases hgap : j - i > 10
    · by_cases hd : Seg.distance (segs.getD i default) (segs.getD j default) < minD
      · simp [hij, hgap, hd]
      · simp [hij, hgap, hd]
    · simp [hij, hgap]
  · simp [hij]

/-! ### C1 evaluation -/

theorem exC1_gapPairs : gapPairs 12 = [(0, 11)] := by decide

theorem sqrt_four : Real.sqrt 4 = 2 := by
  rw [show (4 : ℝ) = 2 ^ 2 by norm_num, Real.sqrt_sq (by norm_num)]

theorem exC1_dist : Seg.distance ⟨⟨0, 0, 0⟩, ⟨1, 0, 0⟩, 1⟩
    ⟨⟨1/2, -(1/2), 1/2⟩, ⟨1/2, 1/2, 1/2⟩, 1⟩ = -(1/2) := by
  rw [distance_core]
  · unfold Seg.dir Vec3.prod Vec3.sub Vec3.dot Vec3.neg Vec3.length
    norm_num
  · rw [vec3_equals_iff]
    norm_num
  · rw [vec3_equals_iff]
    norm_num
  · unfold Seg.dir Vec3.add Vec3.sub Vec3.mult Vec3.length
    norm_num
    rw [sqrt_four]
    norm_num
  · unfold IsNull Seg.dir Vec3.prod Vec3.sub Vec3.length eps
    norm_num

theorem exC1_check : checkDistances exC1 2 = [11] := by
  rw [checkDistances_eq_gapPairs]
  have hl : exC1.length = 12 := rfl
  rw [hl, exC1_gapPairs]
  simp only [List.filterMap_cons, List.filterMap_nil]
  have e0 : exC1.getD 0 default = (⟨⟨0, 0, 0⟩, ⟨1, 0, 0⟩, 1⟩ : Seg) := rfl
  have e11 : exC1.getD 11 default =
    (⟨⟨1/2, -(1/2), 1/2⟩, ⟨1/2, 1/2, 1/2⟩, 1⟩ : Seg) := rfl
  rw [e0, e11, exC1_dist]
  norm_num

theorem exC1_fix : fixGeometry exC1 2 = exC1 := by
  unfold fixGeometry
  rw [exC1_check]
  rfl

theorem exC1_len : Seg.len (exC1.getD 0 default) = 1 := by
  have h0 : exC1.getD 0 default = ⟨⟨0, 0, 0⟩, ⟨1, 0, 0⟩, 1⟩ := rfl
  rw [h0]
  unfold Seg.len Seg.dir Vec3.sub Vec3.length
  norm_num

/-- C1 (counterexample): for the 12-segment geometry `exC1` with clearance
`minD = 2` (twice the first segment's length), one run of `FixGeometry`
leaves the geometry unchanged (the single too-close index 11 condenses to
no region), so the pair `(0, 11)` with `11 - 0 > 10` still has distance
below `minD`: the claimed clearance post-condition is false. -/
theorem C1_counterexample :
    Seg.distance ((fixGeometry exC1 2).getD 0 default)
        ((fixGeometry exC1 2).getD 11 default) < 2 ∧
    11 - 0 > 10 ∧ (2 : ℝ) = 2 * Seg.len (exC1.getD 0 default) := by
  rw [exC1_fix]
  have e0 : exC1.getD 0 default = (⟨⟨0, 0, 0⟩, ⟨1, 0, 0⟩, 1⟩ : Seg) := rfl
  have e11 : exC1.getD 11 default =
    (⟨⟨1/2, -(1/2), 1/2⟩, ⟨1/2, 1/2, 1/2⟩, 1⟩ : Seg) := rfl
  refine ⟨?_, by norm_num, by rw [exC1_len]; norm_num⟩
  rw [e0, e11, exC1_dist]
  norm_num

/-- C1 (amended): `FixGeometry` gives no clearance guarantee after one run;
what holds is that whenever the recorded too-close indices condense to no
region (in particular when a single index is recorded, or none), the
geometry is left unchanged, and on such geometries the repair is
idempotent. -/
theorem C1_amended (segs : List Seg) (minD : ℝ)
    (h : regions (checkDistances segs minD) = []) :
    fixGeometry segs minD = segs ∧
    fixGeometry (fixGeometry segs minD) minD = fixGeometry segs minD := by
  have h1 : fixGeometry segs minD = segs := by
    unfold fixGeometry
    rw [h]
    rfl
  refine ⟨h1, ?_⟩
  rw [h1]
  exact h1

/-- C1 witness: the hypothesis of `C1_amended` holds at the concrete
geometry `exC1` and yields its conclusion there. -/
theorem C1_witness :
    regions (checkDistances exC1 2) = [] ∧
    (fixGeometry exC1 2 = exC1 ∧
     fixGeometry (fixGeometry exC1 2) 2 = fixGeometry exC1 2) := by
  have h : regions (checkDistances exC1 2) = [] := by
    rw [exC1_check]
    rfl
  exact ⟨h, C1_amended exC1 2 h⟩

/-! ### C4 evaluation: building and repairing the example leg -/

theorem exC4_raw : buildAntennaRaw 1 0 exC4nodes = exC4raw := by
  unfold buildAntennaRaw exC4nodes exC4raw
  norm_num [walkSegs, Vec3.move2D, Vec3.mirrorX,
    Real.cos_pi_div_two, Real.sin_pi_div_two, Real.cos_pi, Real.sin_pi,
    show Real.pi / 2 + Real.pi / 2 = Real.pi from by ring,
    show Real.pi + -(3 * Real.pi / 2) = -(Real.pi / 2) from by ring,
    Real.cos_neg, Real.sin_neg]

theorem exC4_gapPairs : gapPairs 13 = [(0, 11), (0, 12), (1, 12)] := by decide

theorem inv_sqrt_two_le_one : (Real.sqrt 2)⁻¹ ≤ 1 := by
  rw [inv_le_one_iff₀]
  right
  rw [show (1:ℝ) = Real.sqrt 1 from (Real.sqrt_one).symm]
  exact Real.sqrt_le_sqrt (by norm_num)

theorem exC4_dist_0_11 : Seg.distance ⟨⟨-(1/2), 0, 0⟩, ⟨1/2, 0, 0⟩, 1⟩
    ⟨⟨1/2, 1, 0⟩, ⟨1/2, 0, 0⟩, 1⟩ = 0 := by
  rw [distance_core]
  · unfold Seg.dir Vec3.prod Vec3.sub Vec3.dot Vec3.neg Vec3.length
    norm_num
  · rw [vec3_equals_iff]
    norm_num
  · rw [vec3_equals_iff]
    norm_num
  · unfold Seg.dir Vec3.add Vec3.sub Vec3.mult Vec3.length
    norm_num
    exact inv_sqrt_two_le_one
  · unfold IsNull Seg.dir Vec3.prod Vec3.sub Vec3.length eps
    norm_num

theorem exC4_dist_0_12 : Seg.distance ⟨⟨-(1/2), 0, 0⟩, ⟨1/2, 0, 0⟩, 1⟩
    ⟨⟨-(1/2), 0, 0⟩, ⟨-(1/2), 1, 0⟩, 1⟩ = 0 := by
  rw [distance_core]
  · unfold Seg.dir Vec3.prod Vec3.sub Vec3.dot Vec3.neg Vec3.length
    norm_num
  · rw [vec3_equals_iff]
    norm_num
  · rw [vec3_equals_iff]
    norm_num
  · unfold Seg.dir Vec3.add Vec3.sub Vec3.mult Vec3.length
    norm_num
    exact inv_sqrt_two_le_one
  · unfold IsNull Seg.dir Vec3.prod Vec3.sub Vec3.length eps
    norm_num

theorem exC4_dist_1_12 : Seg.distance ⟨⟨1/2, 0, 0⟩, ⟨3/2, 0, 0⟩, 1⟩
    ⟨⟨-(1/2), 0, 0⟩, ⟨-(1/2), 1, 0⟩, 1⟩ = maxFloat64 := by
  rw [distance_far]
  · rw [vec3_equals_iff]
    norm_num
  · rw [vec3_equals_iff]
    norm_num
  · unfold Seg.dir Vec3.add Vec3.sub Vec3.mult Vec3.length
    norm_num
    rw [show Real.sqrt 5 / Real.sqrt 2 = Real.sqrt (5/2) from
      (Real.sqrt_div (by norm_num) 2).symm]
    rw [show (1:ℝ) = Real.sqrt 1 from (Real.sqrt_one).symm]
    exact Real.sqrt_lt_sqrt (by norm_num) (by norm_num)

theorem exC4_check : checkDistances exC4raw 2 = [11, 12] := by
  rw [checkDistances_eq_gapPairs]
  have hl : exC4raw.length = 13 := rfl
  rw [hl, exC4_gapPairs]
  simp only [List.filterMap_cons, List.filterMap_nil]
  have e0 : exC4raw.getD 0 default = (⟨⟨-(1/2), 0, 0⟩, ⟨1/2, 0, 0⟩, 1⟩ : Seg) := rfl
  have e1 : exC4raw.getD 1 default = (⟨⟨1/2, 0, 0⟩, ⟨3/2, 0, 0⟩, 1⟩ : Seg) := rfl
  have e11 : exC4raw.getD 11 default = (⟨⟨1/2, 1, 0⟩, ⟨1/2, 0, 0⟩, 1⟩ : Seg) := rfl
  have e12 : exC4raw.getD 12 default = (⟨⟨-(1/2), 0, 0⟩, ⟨-(1/2), 1, 0⟩, 1⟩ : Seg) := rfl
  rw [e0, e1, e11, e12, exC4_dist_0_11, exC4_dist_0_12, exC4_dist_1_12]
  rw [if_pos (by norm_num), if_pos (by norm_num), if_neg (not_lt.mpr maxFloat64_ge_two)]
  rfl

theorem exC4_fix : fixGeometry exC4raw 2 = exC4fixed := by
  unfold fixGeometry
  rw [exC4_check]
  rw [show regions [11, 12] = [(11, 12)] from rfl]
  rw [List.foldl_cons, List.foldl_nil]
  unfold fixRegion exC4raw exC4fixed Bulge
  norm_num [List.mapIdx_cons]

theorem exC4_build : buildAntenna 1 0 exC4nodes = exC4fixed := by
  unfold buildAntenna
  rw [show (2 * ((exC4nodes.headD default).length) : ℝ) = 2 from by
    norm_num [exC4nodes]]
  rw [exC4_raw, exC4_fix]

/-- C4 (counterexample): for the leg `exC4nodes` the built antenna (repair
pass included) contains a primary segment (index 1) whose endpoint pair is
reflected by no segment of the antenna: the repair ramp displaces the
primary and its mirror by different z offsets. -/
theorem C4_counterexample :
    buildAntenna 1 0 exC4nodes = exC4fixed ∧
    ∀ q ∈ buildAntenna 1 0 exC4nodes,
      ¬isMirrorCounterpart (exC4fixed.getD 1 default) q := by
  refine ⟨exC4_build, ?_⟩
  rw [exC4_build]
  intro q hq
  have e1 : exC4fixed.getD 1 default =
    (⟨⟨1/2, 0, 0⟩, ⟨3/2, 0, 1/5⟩, 1⟩ : Seg) := rfl
  rw [e1]
  unfold exC4fixed at hq
  fin_cases hq <;>
    simp [isMirrorCounterpart, Vec3.mirrorX, Seg.mk.injEq, Vec3.mk.injEq] <;>
    norm_num

theorem walkSegs_getD (dia : ℝ) :
    ∀ (nodes : List Node) (k : ℕ) (pos : Vec3) (dir : ℝ), k < nodes.length →
      ∃ a b : Vec3,
        (walkSegs dia pos dir nodes).getD (2 * k) default = ⟨a, b, dia⟩ ∧
        (walkSegs dia pos dir nodes).getD (2 * k + 1) default =
          ⟨b.mirrorX, a.mirrorX, dia⟩
  | [], k, pos, dir, hk => absurd hk (by simp)
  | n :: rest, 0, pos, dir, _ => by
    refine ⟨pos, pos.move2D n.length (dir + n.theta), ?_, ?_⟩ <;> rfl
  | n :: rest, Nat.succ k, pos, dir, hk => by
    have hk2 : k < rest.length := by
      simpa using Nat.lt_of_succ_lt_succ hk
    obtain ⟨a, b, h1, h2⟩ :=
      walkSegs_getD dia rest k (pos.move2D n.length (dir + n.theta)) (dir + n.theta) hk2
    refine ⟨a, b, ?_, ?_⟩
    · rw [show 2 * (k + 1) = (2 * k + 1) + 1 from by ring]
      rw [show walkSegs dia pos dir (n :: rest) =
        ⟨pos, pos.move2D n.length (dir + n.theta), dia⟩ ::
        ⟨(pos.move2D n.length (dir + n.theta)).mirrorX, pos.mirrorX, dia⟩ ::
        walkSegs dia (pos.move2D n.length (dir + n.theta)) (dir + n.theta) rest from rfl]
      rw [List.getD_cons_succ, List.getD_cons_succ]
      exact h1
    · rw [show 2 * (k + 1) + 1 = ((2 * k + 1) + 1) + 1 from by ring]
      rw [show walkSegs dia pos dir (n :: rest) =
        ⟨pos, pos.move2D n.length (dir + n.theta), dia⟩ ::
        ⟨(pos.move2D n.length (dir + n.theta)).mirrorX, pos.mirrorX, dia⟩ ::
        walkSegs dia (pos.move2D n.length (dir + n.theta)) (dir + n.theta) rest from rfl]
      rw [List.getD_cons_succ, List.getD_cons_succ]
      exact h2

/-- C4 (amended): before the repair pass, every primary-leg segment (index
`2k+1` of the raw build) has the next segment (index `2k+2`) as mirrored
counterpart: its endpoint pair is exactly the x-negated copy (with start
and end swapped).  The repair pass can destroy this (see the
counterexample). -/
theorem C4_amended (dia h : ℝ) (nodes : List Node) (k : ℕ) (hk : k < nodes.length) :
    isMirrorCounterpart ((buildAntennaRaw dia h nodes).getD (2 * k + 1) default)
      ((buildAntennaRaw dia h nodes).getD (2 * k + 2) default) := by
  obtain ⟨a, b, h1, h2⟩ := walkSegs_getD dia nodes k
    ⟨(nodes.headD default).length / 2, 0, h⟩ 0 hk
  have e1 : (buildAntennaRaw dia h nodes).getD (2 * k + 1) default =
      (walkSegs dia ⟨(nodes.headD default).length / 2, 0, h⟩ 0 nodes).getD (2 * k) default := by
    unfold buildAntennaRaw
    rw [List.getD_cons_succ]
  have e2 : (buildAntennaRaw dia h nodes).getD (2 * k + 2) default =
      (walkSegs dia ⟨(nodes.headD default).length / 2, 0, h⟩ 0 nodes).getD (2 * k + 1) default := by
    unfold buildAntennaRaw
    rw [show 2 * k + 2 = (2 * k + 1) + 1 from by ring, List.getD_cons_succ]
  rw [e1, e2, h1, h2]
  right
  exact ⟨rfl, rfl⟩

/-- C4 witness: the amended mirror property at the one-node straight leg. -/
theorem C4_witness :
    0 < ([⟨1, 0, 0⟩] : List Node).length ∧
    isMirrorCounterpart ((buildAntennaRaw 1 0 [⟨1, 0, 0⟩]).getD 1 default)
      ((buildAntennaRaw 1 0 [⟨1, 0, 0⟩]).getD 2 default) :=
  ⟨by norm_num, C4_amended 1 0 [⟨1, 0, 0⟩] 0 (by norm_num)⟩

/-! ### C3: the curvature limit -/

theorem circAng_pos : 0 < CircAng := by
  unfold CircAng
  positivity

theorem bendMax_ceil_ge_one (r segL : ℝ) (hr : 0 < r) (hs : 0 < segL) :
    (1 : ℤ) ≤ ⌈CircAng * r / segL⌉ :=
  Int.ceil_pos.mpr (div_pos (mul_pos circAng_pos hr) hs)

/-- C3 (amended): for positive `min_radius` and `segment_length`, `BendMax`
equals `π / ceil(2π·min_radius / segment_length)` and is positive; it is
monotonically non-DEcreasing (not non-increasing) in the segment length for
fixed radius. -/
theorem C3_amended (r s s2 : ℝ) (hr : 0 < r) (hs : 0 < s) (hs2 : s ≤ s2) :
    BendMax r s = Real.pi / ((⌈2 * Real.pi * r / s⌉ : ℤ) : ℝ) ∧
    0 < BendMax r s ∧ BendMax r s ≤ BendMax r s2 := by
  have hpi := Real.pi_pos
  have hs2p : 0 < s2 := lt_of_lt_of_le hs hs2
  have h1 := bendMax_ceil_ge_one r s hr hs
  have h2 := bendMax_ceil_ge_one r s2 hr hs2p
  refine ⟨rfl, ?_, ?_⟩
  · apply div_pos hpi
    exact_mod_cast lt_of_lt_of_le zero_lt_one h1
  · unfold BendMax
    have hc : ⌈CircAng * r / s2⌉ ≤ ⌈CircAng * r / s⌉ := by
      apply Int.ceil_le_ceil
      apply div_le_div_of_nonneg_left _ hs _
      · exact le_of_lt (mul_pos circAng_pos hr)
      · exact hs2
    apply div_le_div_of_nonneg_left (le_of_lt hpi)
    · exact_mod_cast lt_of_lt_of_le zero_lt_one h2
    · exact_mod_cast hc

theorem bendMax_ceil_four : ⌈CircAng * 1 / 4⌉ = (2 : ℤ) := by
  rw [Int.ceil_eq_iff]
  unfold CircAng
  constructor
  · push_cast
    nlinarith [Real.pi_gt_three]
  · push_cast
    nlinarith [Real.pi_le_four]

theorem bendMax_ceil_seven : ⌈CircAng * 1 / 7⌉ = (1 : ℤ) := by
  rw [Int.ceil_eq_iff]
  unfold CircAng
  constructor
  · push_cast
    nlinarith [Real.pi_gt_three]
  · push_cast
    nlinarith [Real.pi_lt_d2]

/-- C3 (counterexample): `BendMax` is not monotonically non-increasing in
the segment length: for `min_radius = 1`, growing the segment length from
4 to 7 grows `BendMax` from π/2 to π. -/
theorem C3_counterexample : BendMax 1 4 < BendMax 1 7 := by
  show Real.pi / ((⌈CircAng * 1 / 4⌉ : ℤ) : ℝ) < Real.pi / ((⌈CircAng * 1 / 7⌉ : ℤ) : ℝ)
  rw [bendMax_ceil_four, bendMax_ceil_seven]
  push_cast
  nlinarith [Real.pi_gt_three]

/-- C3 witness: the amended statement applied at `r = 1, s = 4, s2 = 7`. -/
theorem C3_witness :
    (0 : ℝ) < 1 ∧ (0 : ℝ) < 4 ∧ (4 : ℝ) ≤ 7 ∧
    (BendMax 1 4 = Real.pi / ((⌈2 * Real.pi * 1 / 4⌉ : ℤ) : ℝ) ∧
     0 < BendMax 1 4 ∧ BendMax 1 4 ≤ BendMax 1 7) :=
  ⟨by norm_num, by norm_num, by norm_num,
   C3_amended 1 4 7 (by norm_num) (by norm_num) (by norm_num)⟩

/-! ### C5: the Regions merge drops a trailing singleton region -/

/-- C5: on the input of the function's own documentation example,
`Regions` returns `[3,3] [5,8] [12,12] [15,16]` and drops the trailing
singleton region `[19,19]` promised by the documentation (the final region
is only appended when `last != start`). -/
theorem C5_regions_drops_trailing_singleton :
    regions [3, 5, 6, 7, 8, 12, 15, 16, 19] = [(3, 3), (5, 8), (12, 12), (15, 16)] := by
  decide

/-! ### C8: the Gmean target is not sign-flipped -/

/-- C8: the raw `Gmean` evaluator value equals the mean gain itself, not
its negation: at a performance with mean gain 1 the value is `+1` (the
optimizer maximizes the value, so the code maximizes mean gain, while the
repository documentation specifies minimization, i.e. a sign-flipped
value). -/
theorem C8_gmean_not_sign_flipped :
    (∀ (p : Performance) (z : ℂ), comparatorValue CTarget.Gmean "" p z = p.gain.mean) ∧
    comparatorValue CTarget.Gmean "" exC8perf 50 = 1 ∧
    comparatorValue CTarget.Gmean "" exC8perf 50 ≠ -exC8perf.gain.mean := by
  refine ⟨fun p z => by simp [comparatorValue], ?_, ?_⟩
  · simp [comparatorValue, exC8perf]
  · simp [comparatorValue, exC8perf]
    norm_num

/-! ### C10: track replay safety -/

theorem applyChange_mark (ns : List Node) (c : Change) (h : c.pos = -1) :
    applyChange ns c = some ns := by
  unfold applyChange
  rw [if_pos h]

theorem applyChange_ok (ns : List Node) (c : Change) (h1 : ¬c.pos = -1)
    (h2 : 0 ≤ c.pos ∧ c.pos < (ns.length : ℤ)) :
    applyChange ns c = some (ns.set c.pos.toNat
      ⟨(ns.getD c.pos.toNat default).length,
       (ns.getD c.pos.toNat default).theta + c.theta,
       (ns.getD c.pos.toNat default).phi + c.phi⟩) := by
  unfold applyChange
  rw [if_neg h1, if_pos h2]

theorem applyChange_bad (ns : List Node) (c : Change) (h1 : ¬c.pos = -1)
    (h2 : ¬(0 ≤ c.pos ∧ c.pos < (ns.length : ℤ))) :
    applyChange ns c = none := by
  unfold applyChange
  rw [if_neg h1, if_neg h2]

theorem foldApply_isSome : ∀ (cs : List Change) (ns : List Node),
    (List.foldlM applyChange ns cs).isSome = true ↔
      ∀ c ∈ cs, c.pos = -1 ∨ (0 ≤ c.pos ∧ c.pos < (ns.length : ℤ))
  | [], ns => by simp
  | c :: cs, ns => by
    rw [List.foldlM_cons]
    by_cases h1 : c.pos = -1
    · rw [applyChange_mark ns c h1]
      simp only [Option.bind_eq_bind, Option.some_bind]
      rw [foldApply_isSome cs ns]
      simp [h1]
    · by_cases h2 : 0 ≤ c.pos ∧ c.pos < (ns.length : ℤ)
      · rw [applyChange_ok ns c h1 h2]
        simp only [Option.bind_eq_bind, Option.some_bind]
        rw [foldApply_isSome cs _]
        simp only [List.length_set]
        simp [h1, h2]
      · rw [applyChange_bad ns c h1 h2]
        simp only [Option.bind_eq_bind, Option.none_bind]
        simp only [Option.isSome_none, Bool.false_eq_true, false_iff]
        intro hall
        rcases hall c (by simp) with h | h
        · exact h1 h
        · exact h2 h

/-- C10: `TrackList.Nodes` skips only the `TRK_MARK` sentinel (`Pos = -1`):
the replay performs no out-of-range access exactly when every other track
entry has `0 ≤ Pos < Num`; in particular any entry carrying the sentinels
`TRK_SHORT` (`-2`) or `TRK_LENGTH` (`-3`) makes the lookup
`nodes[chg.Pos]` fall outside the node array. -/
theorem C10_replay_range (tl : TrackList) :
    ((tl.nodesOpt).isSome = true ↔
      ∀ c ∈ tl.track, c.pos = -1 ∨ (0 ≤ c.pos ∧ c.pos < (tl.num : ℤ))) ∧
    ((∃ c ∈ tl.track, c.pos = -2 ∨ c.pos = -3) → tl.nodesOpt = none) := by
  have hbase := foldApply_isSome tl.track
    (List.replicate tl.num (⟨tl.segL, 0, 0⟩ : Node))
  rw [List.length_replicate] at hbase
  constructor
  · exact hbase
  · intro ⟨c, hc, hcp⟩
    rw [← Option.not_isSome_iff_eq_none]
    rw [show (tl.nodesOpt.isSome = true ↔
      ∀ c ∈ tl.track, c.pos = -1 ∨ (0 ≤ c.pos ∧ c.pos < (tl.num : ℤ))) from hbase]
    intro hall
    rcases hall c hc with h | h
    · rcases hcp with h2 | h2 <;> omega
    · rcases hcp with h2 | h2 <;> omega

/-- C10 witness: a track containing a `TRK_SHORT` entry replays to `none`,
and the range characterization holds at that concrete track list. -/
theorem C10_witness :
    (∃ c ∈ exC10tl.track, c.pos = -2 ∨ c.pos = -3) ∧ exC10tl.nodesOpt = none := by
  have h := (C10_replay_range exC10tl).2
  have hex : ∃ c ∈ exC10tl.track, c.pos = -2 ∨ c.pos = -3 :=
    ⟨⟨-2, 0, 0⟩, by simp [exC10tl], by norm_num⟩
  exact ⟨hex, h hex⟩

/-! ### Branch lemmas for the optimizer step -/

theorem optStep_skip_bendMin (P : MParams) (iter : ℕ) (s : MState) (o : OIn)
    (h1 : |2 * (o.u - 0.5) * P.bendStep| < P.bendMin) :
    optStep P iter s o = .next { s with pos := none } := by
  simp only [optStep]
  rw [if_pos h1]

theorem optStep_skip_bendMax (P : MParams) (iter : ℕ) (s : MState) (o : OIn)
    (p : ℕ) (dw : ℝ) (nd : Node)
    (hp : s.pos.getD o.posDraw = p)
    (hdw : 2 * (o.u - 0.5) * P.bendStep = dw)
    (hnd : s.nodes.getD p default = nd)
    (h1 : ¬(|dw| < P.bendMin))
    (h2 : |nd.theta + dw| > P.bendMax) :
    optStep P iter s o = .next { s with pos := none } := by
  simp only [optStep, hp, hdw, hnd]
  rw [if_neg h1, if_pos h2]

theorem optStep_skip_geom (P : MParams) (iter : ℕ) (s : MState) (o : OIn)
    (p : ℕ) (dw : ℝ) (nd : Node)
    (hp : s.pos.getD o.posDraw = p)
    (hdw : 2 * (o.u - 0.5) * P.bendStep = dw)
    (hnd : s.nodes.getD p default = nd)
    (h1 : ¬(|dw| < P.bendMin))
    (h2 : ¬(|nd.theta + dw| > P.bendMax))
    (h3 : ¬checkGeometry (s.nodes.set p ⟨nd.length, nd.theta + dw, nd.phi⟩)) :
    optStep P iter s o = .next { s with pos := none } := by
  simp only [optStep, hp, hdw, hnd]
  rw [if_neg h1, if_neg h2, if_pos h3]

theorem optStep_diverge (P : MParams) (iter : ℕ) (s : MState) (o : OIn)
    (p : ℕ) (dw : ℝ) (nd : Node)
    (hp : s.pos.getD o.posDraw = p)
    (hdw : 2 * (o.u - 0.5) * P.bendStep = dw)
    (hnd : s.nodes.getD p default = nd)
    (h1 : ¬(|dw| < P.bendMin))
    (h2 : ¬(|nd.theta + dw| > P.bendMax))
    (h3 : checkGeometry (s.nodes.set p ⟨nd.length, nd.theta + dw, nd.phi⟩))
    (h4 : o.zr < cfgMinZr ∨ o.zr > cfgMaxZr) :
    optStep P iter s o = .stop .diverged { s with
      nodes := s.nodes.set p ⟨nd.length, nd.theta + dw, nd.phi⟩
      pos := some p } := by
  simp only [optStep, hp, hdw, hnd]
  rw [if_neg h1, if_neg h2, if_neg (not_not_intro h3), if_pos h4]

theorem optStep_exhaust (P : MParams) (iter : ℕ) (s : MState) (o : OIn)
    (p : ℕ) (dw : ℝ) (nd : Node)
    (hp : s.pos.getD o.posDraw = p)
    (hdw : 2 * (o.u - 0.5) * P.bendStep = dw)
    (hnd : s.nodes.getD p default = nd)
    (h1 : ¬(|dw| < P.bendMin))
    (h2 : ¬(|nd.theta + dw| > P.bendMax))
    (h3 : checkGeometry (s.nodes.set p ⟨nd.length, nd.theta + dw, nd.phi⟩))
    (h4 : ¬(o.zr < cfgMinZr ∨ o.zr > cfgMaxZr))
    (h5 : s.tries + 1 > s.maxTries + P.num * cfgMaxRounds) :
    optStep P iter s o = .stop .exhausted { s with
      nodes := s.nodes.set p ⟨nd.length, nd.theta + dw, nd.phi⟩
      tries := s.tries + 1
      pos := some p } := by
  simp only [optStep, hp, hdw, hnd]
  rw [if_neg h1, if_neg h2, if_neg (not_not_intro h3), if_neg h4, if_pos h5]

theorem optStep_reject (P : MParams) (iter : ℕ) (s : MState) (o : OIn)
    (p : ℕ) (dw : ℝ) (nd : Node)
    (hp : s.pos.getD o.posDraw = p)
    (hdw : 2 * (o.u - 0.5) * P.bendStep = dw)
    (hnd : s.nodes.getD p default = nd)
    (h1 : ¬(|dw| < P.bendMin))
    (h2 : ¬(|nd.theta + dw| > P.bendMax))
    (h3 : checkGeometry (s.nodes.set p ⟨nd.length, nd.theta + dw, nd.phi⟩))
    (h4 : ¬(o.zr < cfgMinZr ∨ o.zr > cfgMaxZr))
    (h5 : ¬(s.tries + 1 > s.maxTries + P.num * cfgMaxRounds))
    (h6 : ¬(o.val - s.bestVal > eps)) :
    optStep P iter s o = .next { s with tries := s.tries + 1, pos := none } := by
  simp only [optStep, hp, hdw, hnd]
  rw [if_neg h1, if_neg h2, if_neg (not_not_intro h3), if_neg h4, if_neg h5, if_neg h6]

theorem optStep_iterCap (P : MParams) (iter : ℕ) (s : MState) (o : OIn)
    (p : ℕ) (dw : ℝ) (nd : Node)
    (hp : s.pos.getD o.posDraw = p)
    (hdw : 2 * (o.u - 0.5) * P.bendStep = dw)
    (hnd : s.nodes.getD p default = nd)
    (h1 : ¬(|dw| < P.bendMin))
    (h2 : ¬(|nd.theta + dw| > P.bendMax))
    (h3 : checkGeometry (s.nodes.set p ⟨nd.length, nd.theta + dw, nd.phi⟩))
    (h4 : ¬(o.zr < cfgMinZr ∨ o.zr > cfgMaxZr))
    (h5 : ¬(s.tries + 1 > s.maxTries + P.num * cfgMaxRounds))
    (h6 : o.val - s.bestVal > eps)
    (h7 : iter = s.steps + 1) :
    optStep P iter s o = .stop .iterCap { s with
      nodes := s.nodes.set p ⟨nd.length, nd.theta + dw, nd.phi⟩
      bestNodes := s.nodes.set p ⟨nd.length, nd.theta + dw, nd.phi⟩
      bestVal := o.val
      track := s.track ++ [⟨(p : ℤ), dw, 0⟩]
      steps := s.steps + 1
      tries := s.tries + 1
      pos := some p } := by
  simp only [optStep, hp, hdw, hnd]
  rw [if_neg h1, if_neg h2, if_neg (not_not_intro h3), if_neg h4, if_neg h5, if_pos h6,
    if_pos h7]

theorem optStep_accept (P : MParams) (iter : ℕ) (s : MState) (o : OIn)
    (p : ℕ) (dw : ℝ) (nd : Node)
    (hp : s.pos.getD o.posDraw = p)
    (hdw : 2 * (o.u - 0.5) * P.bendStep = dw)
    (hnd : s.nodes.getD p default = nd)
    (h1 : ¬(|dw| < P.bendMin))
    (h2 : ¬(|nd.theta + dw| > P.bendMax))
    (h3 : checkGeometry (s.nodes.set p ⟨nd.length, nd.theta + dw, nd.phi⟩))
    (h4 : ¬(o.zr < cfgMinZr ∨ o.zr > cfgMaxZr))
    (h5 : ¬(s.tries + 1 > s.maxTries + P.num * cfgMaxRounds))
    (h6 : o.val - s.bestVal > eps)
    (h7 : ¬(iter = s.steps + 1))
    (h8 : ¬((s.steps + 1) % cfgProgressCheck = 0)) :
    optStep P iter s o = .next { s with
      nodes := s.nodes.set p ⟨nd.length, nd.theta + dw, nd.phi⟩
      bestNodes := s.nodes.set p ⟨nd.length, nd.theta + dw, nd.phi⟩
      bestVal := o.val
      track := s.track ++ [⟨(p : ℤ), dw, 0⟩]
      steps := s.steps + 1
      tries := s.tries + 1
      pos := some p } := by
  simp only [optStep, hp, hdw, hnd]
  rw [if_neg h1, if_neg h2, if_neg (not_not_intro h3), if_neg h4, if_neg h5, if_pos h6,
    if_neg h7, if_neg h8]

theorem optStep_boundary_first (P : MParams) (iter : ℕ) (s : MState) (o : OIn)
    (p : ℕ) (dw : ℝ) (nd : Node)
    (hp : s.pos.getD o.posDraw = p)
    (hdw : 2 * (o.u - 0.5) * P.bendStep = dw)
    (hnd : s.nodes.getD p default = nd)
    (h1 : ¬(|dw| < P.bendMin))
    (h2 : ¬(|nd.theta + dw| > P.bendMax))
    (h3 : checkGeometry (s.nodes.set p ⟨nd.length, nd.theta + dw, nd.phi⟩))
    (h4 : ¬(o.zr < cfgMinZr ∨ o.zr > cfgMaxZr))
    (h5 : ¬(s.tries + 1 > s.maxTries + P.num * cfgMaxRounds))
    (h6 : o.val - s.bestVal > eps)
    (h7 : ¬(iter = s.steps + 1))
    (h8 : (s.steps + 1) % cfgProgressCheck = 0)
    (hlv : s.lastVal = none) :
    optStep P iter s o = .next { s with
      nodes := s.nodes.set p ⟨nd.length, nd.theta + dw, nd.phi⟩
      bestNodes := s.nodes.set p ⟨nd.length, nd.theta + dw, nd.phi⟩
      bestVal := o.val
      track := s.track ++ [⟨(p : ℤ), dw, 0⟩]
      steps := s.steps + 1
      lastVal := some o.val
      maxTries := max s.maxTries (s.tries + 1)
      tries := 0
      pos := some p } := by
  simp only [optStep, hp, hdw, hnd]
  rw [if_neg h1, if_neg h2, if_neg (not_not_intro h3), if_neg h4, if_neg h5, if_pos h6,
    if_neg h7, if_pos h8, hlv]

theorem optStep_boundary_conv (P : MParams) (iter : ℕ) (s : MState) (o : OIn)
    (p : ℕ) (dw : ℝ) (nd : Node) (lv : ℝ)
    (hp : s.pos.getD o.posDraw = p)
    (hdw : 2 * (o.u - 0.5) * P.bendStep = dw)
    (hnd : s.nodes.getD p default = nd)
    (h1 : ¬(|dw| < P.bendMin))
    (h2 : ¬(|nd.theta + dw| > P.bendMax))
    (h3 : checkGeometry (s.nodes.set p ⟨nd.length, nd.theta + dw, nd.phi⟩))
    (h4 : ¬(o.zr < cfgMinZr ∨ o.zr > cfgMaxZr))
    (h5 : ¬(s.tries + 1 > s.maxTries + P.num * cfgMaxRounds))
    (h6 : o.val - s.bestVal > eps)
    (h7 : ¬(iter = s.steps + 1))
    (h8 : (s.steps + 1) % cfgProgressCheck = 0)
    (hlv : s.lastVal = some lv)
    (hcv : o.val - lv < cfgMinChange) :
    optStep P iter s o = .stop .converged { s with
      nodes := s.nodes.set p ⟨nd.length, nd.theta + dw, nd.phi⟩
      bestNodes := s.nodes.set p ⟨nd.length, nd.theta + dw, nd.phi⟩
      bestVal := o.val
      track := s.track ++ [⟨(p : ℤ), dw, 0⟩]
      steps := s.steps + 1
      tries := s.tries + 1
      pos := some p } := by
  simp only [optStep, hp, hdw, hnd]
  rw [if_neg h1, if_neg h2, if_neg (not_not_intro h3), if_neg h4, if_neg h5, if_pos h6,
    if_neg h7, if_pos h8, hlv]
  simp only []
  rw [if_pos hcv]

theorem optStep_boundary_cont (P : MParams) (iter : ℕ) (s : MState) (o : OIn)
    (p : ℕ) (dw : ℝ) (nd : Node) (lv : ℝ)
    (hp : s.pos.getD o.posDraw = p)
    (hdw : 2 * (o.u - 0.5) * P.bendStep = dw)
    (hnd : s.nodes.getD p default = nd)
    (h1 : ¬(|dw| < P.bendMin))
    (h2 : ¬(|nd.theta + dw| > P.bendMax))
    (h3 : checkGeometry (s.nodes.set p ⟨nd.length, nd.theta + dw, nd.phi⟩))
    (h4 : ¬(o.zr < cfgMinZr ∨ o.zr > cfgMaxZr))
    (h5 : ¬(s.tries + 1 > s.maxTries + P.num * cfgMaxRounds))
    (h6 : o.val - s.bestVal > eps)
    (h7 : ¬(iter = s.steps + 1))
    (h8 : (s.steps + 1) % cfgProgressCheck = 0)
    (hlv : s.lastVal = some lv)
    (hcv : ¬(o.val - lv < cfgMinChange)) :
    optStep P iter s o = .next { s with
      nodes := s.nodes.set p ⟨nd.length, nd.theta + dw, nd.phi⟩
      bestNodes := s.nodes.set p ⟨nd.length, nd.theta + dw, nd.phi⟩
      bestVal := o.val
      track := s.track ++ [⟨(p : ℤ), dw, 0⟩]
      steps := s.steps + 1
      lastVal := some o.val
      maxTries := max s.maxTries (s.tries + 1)
      tries := 0
      pos := some p } := by
  simp only [optStep, hp, hdw, hnd]
  rw [if_neg h1, if_neg h2, if_neg (not_not_intro h3), if_neg h4, if_neg h5, if_pos h6,
    if_neg h7, if_pos h8, hlv]
  simp only []
  rw [if_neg hcv]

/-! ### Evaluating goMod and checkGeometry on small inputs -/

theorem goMod_small (v y : ℝ) (hy : 0 < y) (h : |v| < y) : goMod v y = v := by
  unfold goMod
  rcases abs_lt.mp h with ⟨hlo, hhi⟩
  by_cases h0 : 0 ≤ v / y
  · rw [if_pos h0]
    rw [show ⌊v / y⌋ = 0 from Int.floor_eq_zero_iff.mpr
      ⟨h0, by rw [div_lt_one hy]; exact hhi⟩]
    simp
  · rw [if_neg h0]
    rw [show ⌈v / y⌉ = 0 from Int.ceil_eq_zero_iff.mpr
      ⟨by rw [lt_div_iff₀ hy]; linarith, le_of_not_le h0⟩]
    simp

theorem cos_nonneg_of_small (t : ℝ) (h : |t| ≤ 1.2) : 0 ≤ Real.cos t := by
  rcases abs_le.mp h with ⟨hlo, hhi⟩
  apply Real.cos_nonneg_of_mem_Icc
  constructor
  · nlinarith [Real.pi_gt_three]
  · nlinarith [Real.pi_gt_three]

theorem abs_lt_circAng (t : ℝ) (h : |t| ≤ 1.2) : |t| < CircAng := by
  unfold CircAng
  nlinarith [Real.pi_gt_three, abs_nonneg t]

theorem checkGeomAux_of_cos (d : ℝ) : ∀ (nodes : List Node) (pos : Vec3) (dir : ℝ),
    d / 2 ≤ pos.x → (∀ θ ∈ dirsOf dir nodes, 0 ≤ Real.cos θ) →
    (∀ n ∈ nodes, 0 ≤ n.length) →
    checkGeomAux d pos dir nodes
  | [], pos, dir, hx, hcos, hlen => by
    simp only [checkGeomAux]
  | n :: rest, pos, dir, hx, hcos, hlen => by
    have hc : 0 ≤ Real.cos (goMod (dir + n.theta) CircAng) := by
      apply hcos
      simp only [dirsOf, List.mem_cons]
      left
      trivial
    have hl : 0 ≤ n.length := hlen n (by simp)
    have hx2 : d / 2 ≤ (pos.move2D n.length (goMod (dir + n.theta) CircAng)).x := by
      simp only [Vec3.move2D]
      nlinarith
    simp only [checkGeomAux]
    rw [if_neg (not_lt.mpr hx2)]
    apply checkGeomAux_of_cos d rest _ _ hx2
    · intro θ hθ
      apply hcos
      simp only [dirsOf, List.mem_cons]
      right
      exact hθ
    · intro m hm
      exact hlen m (by simp [hm])

/-- If every accumulated walk direction of a leg has non-negative cosine
and all segment lengths are non-negative, the bend2d validity check
accepts the leg. -/
theorem checkGeometry_of_cos (nodes : List Node)
    (hcos : ∀ θ ∈ dirsOf 0 nodes, 0 ≤ Real.cos θ)
    (hlen : ∀ n ∈ nodes, 0 ≤ n.length) :
    checkGeometry nodes := by
  unfold checkGeometry
  exact checkGeomAux_of_cos _ nodes _ 0 (le_refl _) hcos hlen

theorem checkGeometry_one (t : ℝ) (h : |t| ≤ 1.2) :
    checkGeometry [⟨1, t, 0⟩] := by
  apply checkGeometry_of_cos
  · intro θ hθ
    simp only [dirsOf, List.mem_cons, List.not_mem_nil, or_false] at hθ
    subst hθ
    rw [goMod_small _ _ circAng_pos (abs_lt_circAng _ (by rw [zero_add]; exact h))]
    exact cos_nonneg_of_small _ (by rw [zero_add]; exact h)
  · intro n hn
    simp only [List.mem_cons, List.not_mem_nil, or_false] at hn
    subst hn
    norm_num

theorem checkGeometry_three (t : ℝ) (h : |t| ≤ 1.2) :
    checkGeometry [⟨1, t, 0⟩, ⟨1, 0, 0⟩, ⟨1, 0, 0⟩] := by
  have h1 : |0 + t| ≤ 1.2 := by rw [zero_add]; exact h
  have h2 : |0 + t + 0| ≤ 1.2 := by rw [add_zero]; exact h1
  have h3 : |0 + t + 0 + 0| ≤ 1.2 := by rw [add_zero]; exact h2
  have hm1 : goMod (0 + t) CircAng = 0 + t :=
    goMod_small _ _ circAng_pos (abs_lt_circAng _ h1)
  have hm2 : goMod (0 + t + 0) CircAng = 0 + t + 0 :=
    goMod_small _ _ circAng_pos (abs_lt_circAng _ h2)
  have hm3 : goMod (0 + t + 0 + 0) CircAng = 0 + t + 0 + 0 :=
    goMod_small _ _ circAng_pos (abs_lt_circAng _ h3)
  apply checkGeometry_of_cos
  · intro θ hθ
    simp only [dirsOf, hm1, hm2, hm3, List.mem_cons, List.not_mem_nil, or_false] at hθ
    rcases hθ with hθ | hθ | hθ
    · subst hθ
      exact cos_nonneg_of_small _ h1
    · subst hθ
      exact cos_nonneg_of_small _ h2
    · subst hθ
      exact cos_nonneg_of_small _ h3
  · intro n hn
    fin_cases hn <;> norm_num

/-! ### C6: the no-improvement counter -/

theorem runOpt_succ (P : MParams) (iter : ℕ) (os : ℕ → OIn) (n i : ℕ) (s : MState) :
    runOpt P iter os (n + 1) i s = match optStep P iter s (os i) with
      | .next s2 => runOpt P iter os n (i + 1) s2
      | .stop r s2 => .out r s2 := rfl

theorem abs_point_three : |(0.3 : ℝ)| = 0.3 := abs_of_nonneg (by norm_num)

/-- C6 (counterexample): in a fresh one-joint run, the very first
evaluated candidate is accepted and the iteration continues — yet the
no-improvement counter ends at 1, not 0: it is incremented on the accepted
evaluation and not reset by the accepted step (reset happens only at
progress-check boundaries). -/
theorem C6_counterexample :
    (optStep exP1 0 (prepState [⟨1, 0, 0⟩] 0) exC6o).continues ∧
    (optStep exP1 0 (prepState [⟨1, 0, 0⟩] 0) exC6o).state.steps = 1 ∧
    (optStep exP1 0 (prepState [⟨1, 0, 0⟩] 0) exC6o).state.tries = 1 := by
  have h := optStep_accept exP1 0 (prepState [⟨1, 0, 0⟩] 0) exC6o 0 0.3 ⟨1, 0, 0⟩
    rfl (by norm_num [exC6o, exP1]) rfl
    (by rw [not_lt, abs_point_three]; norm_num [exP1])
    (by show ¬(|(0 : ℝ) + 0.3| > exP1.bendMax); rw [zero_add, abs_point_three]; norm_num [exP1])
    (by
      show checkGeometry [⟨1, (0 : ℝ) + 0.3, 0⟩]
      apply checkGeometry_one
      rw [zero_add, abs_point_three]
      norm_num)
    (by norm_num [exC6o, cfgMinZr, cfgMaxZr])
    (by norm_num [exP1, cfgMaxRounds, prepState])
    (by norm_num [exC6o, eps, prepState])
    (by norm_num [prepState])
    (by norm_num [prepState, cfgProgressCheck])
  rw [h]
  exact ⟨trivial, rfl, rfl⟩

/-- C6 (amended): on every iteration that reaches the evaluation (the
delta passes the bend guards and the validity check, and the feed
resistance stays in band), the no-improvement counter is incremented —
whether the step is accepted or rejected; it is reset to zero only when an
accepted step lands on a progress-check boundary (step count divisible by
`ProgressCheck`, here with no previous boundary value and no iteration
cap), and the run ends `Exhausted` exactly when the incremented counter
exceeds `maxTries + num*MaxRounds` (the largest counter value recorded at
a boundary plus joints times rounds). -/
theorem C6_amended (P : MParams) (iter : ℕ) (s : MState) (o : OIn)
    (p : ℕ) (dw : ℝ) (nd : Node)
    (hp : s.pos.getD o.posDraw = p)
    (hdw : 2 * (o.u - 0.5) * P.bendStep = dw)
    (hnd : s.nodes.getD p default = nd)
    (h1 : ¬(|dw| < P.bendMin))
    (h2 : ¬(|nd.theta + dw| > P.bendMax))
    (h3 : checkGeometry (s.nodes.set p ⟨nd.length, nd.theta + dw, nd.phi⟩))
    (h4 : ¬(o.zr < cfgMinZr ∨ o.zr > cfgMaxZr)) :
    (s.tries + 1 > s.maxTries + P.num * cfgMaxRounds →
      optStep P iter s o = .stop .exhausted { s with
        nodes := s.nodes.set p ⟨nd.length, nd.theta + dw, nd.phi⟩
        tries := s.tries + 1
        pos := some p }) ∧
    (¬(s.tries + 1 > s.maxTries + P.num * cfgMaxRounds) →
      ¬(o.val - s.bestVal > eps) →
      (optStep P iter s o).state.tries = s.tries + 1) ∧
    (¬(s.tries + 1 > s.maxTries + P.num * cfgMaxRounds) →
      o.val - s.bestVal > eps → ¬(iter = s.steps + 1) →
      ¬((s.steps + 1) % cfgProgressCheck = 0) →
      (optStep P iter s o).state.tries = s.tries + 1 ∧
      (optStep P iter s o).state.steps = s.steps + 1) ∧
    (¬(s.tries + 1 > s.maxTries + P.num * cfgMaxRounds) →
      o.val - s.bestVal > eps → ¬(iter = s.steps + 1) →
      (s.steps + 1) % cfgProgressCheck = 0 → s.lastVal = none →
      (optStep P iter s o).state.tries = 0 ∧
      (optStep P iter s o).state.maxTries = max s.maxTries (s.tries + 1)) := by
  refine ⟨?_, ?_, ?_, ?_⟩
  · intro h5
    exact optStep_exhaust P iter s o p dw nd hp hdw hnd h1 h2 h3 h4 h5
  · intro h5 h6
    rw [optStep_reject P iter s o p dw nd hp hdw hnd h1 h2 h3 h4 h5 h6]
    rfl
  · intro h5 h6 h7 h8
    rw [optStep_accept P iter s o p dw nd hp hdw hnd h1 h2 h3 h4 h5 h6 h7 h8]
    exact ⟨rfl, rfl⟩
  · intro h5 h6 h7 h8 hlv
    rw [optStep_boundary_first P iter s o p dw nd hp hdw hnd h1 h2 h3 h4 h5 h6 h7 h8 hlv]
    exact ⟨rfl, rfl⟩

/-- C6 witness: the amended behaviour checked at the concrete one-joint
input of the counterexample: the accepted, non-boundary first step ends
with counter 1 and step count 1. -/
theorem C6_witness :
    (optStep exP1 0 (prepState [⟨1, 0, 0⟩] 0) exC6o).state.tries =
      (prepState [⟨1, 0, 0⟩] 0).tries + 1 ∧
    (optStep exP1 0 (prepState [⟨1, 0, 0⟩] 0) exC6o).state.steps =
      (prepState [⟨1, 0, 0⟩] 0).steps + 1 := by
  have h := C6_amended exP1 0 (prepState [⟨1, 0, 0⟩] 0) exC6o 0 0.3 ⟨1, 0, 0⟩
    rfl (by norm_num [exC6o, exP1]) rfl
    (by rw [not_lt, abs_point_three]; norm_num [exP1])
    (by show ¬(|(0 : ℝ) + 0.3| > exP1.bendMax); rw [zero_add, abs_point_three]; norm_num [exP1])
    (by
      show checkGeometry [⟨1, (0 : ℝ) + 0.3, 0⟩]
      apply checkGeometry_one
      rw [zero_add, abs_point_three]
      norm_num)
    (by norm_num [exC6o, cfgMinZr, cfgMaxZr])
  exact h.2.2.1
    (by norm_num [exP1, cfgMaxRounds, prepState])
    (by norm_num [exC6o, eps, prepState])
    (by norm_num [prepState])
    (by norm_num [prepState, cfgProgressCheck])

/-! ### C7: convergence detection -/

/-- C7 (amended): convergence is detected only at progress-check
boundaries from the second check onward: when an accepted step makes the
step count divisible by `ProgressCheck` (and the iteration cap is not
hit), the run stops `Converged` exactly if a previous boundary value is
recorded and the value improved by less than `MinChange` since then; at
the first boundary (no recorded value) the run always continues, merely
recording the value. -/
theorem C7_amended (P : MParams) (iter : ℕ) (s : MState) (o : OIn)
    (p : ℕ) (dw : ℝ) (nd : Node)
    (hp : s.pos.getD o.posDraw = p)
    (hdw : 2 * (o.u - 0.5) * P.bendStep = dw)
    (hnd : s.nodes.getD p default = nd)
    (h1 : ¬(|dw| < P.bendMin))
    (h2 : ¬(|nd.theta + dw| > P.bendMax))
    (h3 : checkGeometry (s.nodes.set p ⟨nd.length, nd.theta + dw, nd.phi⟩))
    (h4 : ¬(o.zr < cfgMinZr ∨ o.zr > cfgMaxZr))
    (h5 : ¬(s.tries + 1 > s.maxTries + P.num * cfgMaxRounds))
    (h6 : o.val - s.bestVal > eps)
    (h7 : ¬(iter = s.steps + 1))
    (h8 : (s.steps + 1) % cfgProgressCheck = 0) :
    (∀ lv, s.lastVal = some lv → o.val - lv < cfgMinChange →
      optStep P iter s o = .stop .converged { s with
        nodes := s.nodes.set p ⟨nd.length, nd.theta + dw, nd.phi⟩
        bestNodes := s.nodes.set p ⟨nd.length, nd.theta + dw, nd.phi⟩
        bestVal := o.val
        track := s.track ++ [⟨(p : ℤ), dw, 0⟩]
        steps := s.steps + 1
        tries := s.tries + 1
        pos := some p }) ∧
    (s.lastVal = none → (optStep P iter s o).continues ∧
      (optStep P iter s o).state.lastVal = some o.val) := by
  constructor
  · intro lv hlv hcv
    exact optStep_boundary_conv P iter s o p dw nd lv hp hdw hnd h1 h2 h3 h4 h5 h6 h7 h8 hlv hcv
  · intro hlv
    rw [optStep_boundary_first P iter s o p dw nd hp hdw hnd h1 h2 h3 h4 h5 h6 h7 h8 hlv]
    exact ⟨trivial, rfl⟩

theorem abs_point_one : |(0.1 : ℝ)| = 0.1 := abs_of_nonneg (by norm_num)

theorem c7_step (k : ℕ) (hk : k ≤ 8) :
    optStep exP3 0 (c7state k) (exC7os k) = .next (c7state (k + 1)) := by
  have hklt : k < 10 := by omega
  have hk8 : (k : ℝ) ≤ 8 := by exact_mod_cast hk
  have h := optStep_accept exP3 0 (c7state k) (exC7os k) 0 0.1 ⟨1, (k : ℝ) * 0.1, 0⟩
    (by by_cases h0 : k = 0 <;> simp [c7state, h0, exC7os, hklt])
    (by simp [exC7os, hklt, exP3]; norm_num)
    rfl
    (by simp only [exP3]; rw [not_lt, abs_point_one]; norm_num)
    (by
      simp only [exP3]
      rw [not_lt, abs_of_nonneg (by positivity)]
      nlinarith)
    (by
      show checkGeometry [⟨1, (k : ℝ) * 0.1 + 0.1, 0⟩, ⟨1, 0, 0⟩, ⟨1, 0, 0⟩]
      apply checkGeometry_three
      rw [abs_of_nonneg (by positivity)]
      nlinarith)
    (by simp [exC7os, hklt, cfgMinZr, cfgMaxZr]; norm_num)
    (by simp [c7state, exP3, cfgMaxRounds]; omega)
    (by
      simp [exC7os, hklt, c7state, eps]
      rw [show ((k:ℝ) + 1) * 2e-9 - (k:ℝ) * 2e-9 = 2e-9 from by ring]
      norm_num)
    (by simp [c7state])
    (by simp [c7state, cfgProgressCheck]; omega)
  rw [h]
  congr 1
  simp only [c7state, exC7os, hklt, if_pos, List.set_cons_zero]
  simp only [List.replicate_succ', List.cons_append, Nat.cast_zero, MState.mk.injEq]
  push_cast
  norm_num
  ring_nf

theorem c7_step9 :
    optStep exP3 0 (c7state 9) (exC7os 9) = .next c7s10 := by
  have h := optStep_boundary_first exP3 0 (c7state 9) (exC7os 9) 0 0.1
    ⟨1, ((9 : ℕ) : ℝ) * 0.1, 0⟩
    (by simp [c7state])
    (by simp [exC7os, exP3]; norm_num)
    rfl
    (by simp only [exP3]; rw [not_lt, abs_point_one]; norm_num)
    (by
      simp only [exP3]
      rw [not_lt, abs_of_nonneg (by positivity)]
      norm_num)
    (by
      show checkGeometry [⟨1, ((9 : ℕ) : ℝ) * 0.1 + 0.1, 0⟩, ⟨1, 0, 0⟩, ⟨1, 0, 0⟩]
      apply checkGeometry_three
      rw [abs_of_nonneg (by positivity)]
      norm_num)
    (by simp [exC7os, cfgMinZr, cfgMaxZr]; norm_num)
    (by simp [c7state, exP3, cfgMaxRounds])
    (by
      simp [exC7os, c7state, eps]
      norm_num)
    (by simp [c7state])
    (by simp [c7state, cfgProgressCheck])
    (by simp [c7state])
  rw [h]
  congr 1
  simp only [c7state, c7s10, exC7os, List.replicate_succ', List.cons_append,
    Nat.cast_zero, MState.mk.injEq]
  push_cast
  norm_num

theorem c7_step10 :
    optStep exP3 0 c7s10 (exC7os 10) = .stop .diverged c7div := by
  have h := optStep_diverge exP3 0 c7s10 (exC7os 10) 0 (-0.1) ⟨1, 1, 0⟩
    (by simp [c7s10])
    (by simp [exC7os, exP3]; norm_num)
    rfl
    (by rw [not_lt, abs_neg, abs_point_one]; simp only [exP3]; norm_num)
    (by
      simp only [exP3]
      rw [show (1 : ℝ) + -0.1 = 0.9 from by norm_num, not_lt,
        show |(0.9 : ℝ)| = 0.9 from abs_of_nonneg (by norm_num)]
      norm_num)
    (by
      show checkGeometry [⟨1, (1 : ℝ) + -0.1, 0⟩, ⟨1, 0, 0⟩, ⟨1, 0, 0⟩]
      apply checkGeometry_three
      rw [show (1 : ℝ) + -0.1 = 0.9 from by norm_num,
        show |(0.9 : ℝ)| = 0.9 from abs_of_nonneg (by norm_num)]
      norm_num)
    (by
      left
      simp [exC7os, cfgMinZr]
      norm_num)
  rw [h]
  congr 1
  simp only [c7s10, c7div, MState.mk.injEq]
  norm_num

theorem changesAux_straight : ∀ (k : ℕ) (ns : List Node),
    (∀ n ∈ ns, n.theta = 0 ∧ n.phi = 0) → changesAux k ns = []
  | _, [], _ => rfl
  | k, n :: rest, h => by
    have hn := h n (by simp)
    have hnull : IsNull n.theta ∧ IsNull n.phi := by
      rw [hn.1, hn.2]
      unfold IsNull eps
      norm_num
    unfold changesAux
    rw [if_neg (by push_neg; exact hnull)]
    exact changesAux_straight (k + 1) rest (fun m hm => h m (by simp [hm]))

theorem c7_prep : prepState exC7init 0 = c7state 0 := by
  unfold prepState c7state exC7init changes
  rw [changesAux_straight 0 _ (by intro n hn; fin_cases hn <;> exact ⟨rfl, rfl⟩)]
  simp only [MState.mk.injEq]
  norm_num

theorem c7_run : exC7run = .out .diverged c7div := by
  unfold exC7run
  rw [c7_prep]
  rw [show (11 : ℕ) = 10 + 1 from rfl, runOpt_succ, c7_step 0 (by norm_num)]
  change runOpt exP3 0 exC7os 10 1 (c7state 1) = _
  rw [show (10 : ℕ) = 9 + 1 from rfl, runOpt_succ, c7_step 1 (by norm_num)]
  change runOpt exP3 0 exC7os 9 2 (c7state 2) = _
  rw [show (9 : ℕ) = 8 + 1 from rfl, runOpt_succ, c7_step 2 (by norm_num)]
  change runOpt exP3 0 exC7os 8 3 (c7state 3) = _
  rw [show (8 : ℕ) = 7 + 1 from rfl, runOpt_succ, c7_step 3 (by norm_num)]
  change runOpt exP3 0 exC7os 7 4 (c7state 4) = _
  rw [show (7 : ℕ) = 6 + 1 from rfl, runOpt_succ, c7_step 4 (by norm_num)]
  change runOpt exP3 0 exC7os 6 5 (c7state 5) = _
  rw [show (6 : ℕ) = 5 + 1 from rfl, runOpt_succ, c7_step 5 (by norm_num)]
  change runOpt exP3 0 exC7os 5 6 (c7state 6) = _
  rw [show (5 : ℕ) = 4 + 1 from rfl, runOpt_succ, c7_step 6 (by norm_num)]
  change runOpt exP3 0 exC7os 4 7 (c7state 7) = _
  rw [show (4 : ℕ) = 3 + 1 from rfl, runOpt_succ, c7_step 7 (by norm_num)]
  change runOpt exP3 0 exC7os 3 8 (c7state 8) = _
  rw [show (3 : ℕ) = 2 + 1 from rfl, runOpt_succ, c7_step 8 (by norm_num)]
  change runOpt exP3 0 exC7os 2 9 (c7state 9) = _
  rw [show (2 : ℕ) = 1 + 1 from rfl, runOpt_succ, c7_step9]
  change runOpt exP3 0 exC7os 1 10 c7s10 = _
  rw [show (1 : ℕ) = 0 + 1 from rfl, runOpt_succ, c7_step10]

/-- C7 (counterexample): the eleven-iteration run `exC7run` (default
`MinChange = 0.001`, `ProgressCheck = 10`) performs ten consecutive
accepted steps whose cumulative improvement `2e-8` is far below
`MinChange`, yet the run does not transition to Converged: the first
progress check only records the value, and the run later ends Diverged. -/
theorem C7_counterexample :
    exC7run = .out .diverged c7div ∧
    c7div.steps = 10 ∧
    c7div.bestVal - (prepState exC7init 0).bestVal < cfgMinChange ∧
    exC7run.reasonOpt ≠ some Reason.converged := by
  refine ⟨c7_run, rfl, ?_, ?_⟩
  · show (2e-8 : ℝ) - (prepState exC7init 0).bestVal < cfgMinChange
    rw [show (prepState exC7init 0).bestVal = 0 from rfl]
    unfold cfgMinChange
    norm_num
  · rw [c7_run]
    simp only [RunRes.reasonOpt]
    intro hc
    exact Reason.noConfusion (Option.some.inj hc)

/-- C7 witness: the amended convergence rule applied at a concrete state
(nine accepted steps, previous boundary value 0): the tenth accepted step
lands on the boundary, improves by less than `MinChange`, and the step
stops Converged. -/
theorem C7_witness :
    (optStep exP3 0 { c7state 9 with lastVal := some 0 } (exC7os 9)).reasonOpt =
      some Reason.converged := by
  have h := C7_amended exP3 0 { c7state 9 with lastVal := some 0 } (exC7os 9) 0 0.1
    ⟨1, ((9 : ℕ) : ℝ) * 0.1, 0⟩
    (by simp [c7state])
    (by simp [exC7os, exP3]; norm_num)
    rfl
    (by simp only [exP3]; rw [not_lt, abs_point_one]; norm_num)
    (by
      simp only [exP3]
      rw [not_lt, abs_of_nonneg (by positivity)]
      norm_num)
    (by
      show checkGeometry [⟨1, ((9 : ℕ) : ℝ) * 0.1 + 0.1, 0⟩, ⟨1, 0, 0⟩, ⟨1, 0, 0⟩]
      apply checkGeometry_three
      rw [abs_of_nonneg (by positivity)]
      norm_num)
    (by simp [exC7os, cfgMinZr, cfgMaxZr]; norm_num)
    (by simp [c7state, exP3, cfgMaxRounds])
    (by
      simp [exC7os, c7state, eps]
      norm_num)
    (by simp [c7state])
    (by simp [c7state, cfgProgressCheck])
  rw [h.1 0 rfl (by simp [exC7os, cfgMinChange]; norm_num)]
  rfl

/-! ### C2: replaying the track reproduces the best leg -/

theorem take_succ_getD (ns : List Node) (k : ℕ) (h : k < ns.length) :
    ns.take (k + 1) = ns.take k ++ [ns.getD k default] := by
  rw [List.getD_eq_getElem ns default h]
  exact (List.take_concat_get' ns k h).symm

theorem set_take_front (ns : List Node) (k : ℕ) (n : Node) (h : k < ns.length) :
    (ns.set k n).take k = ns.take k := by
  apply List.ext_getElem?
  intro m
  by_cases hm : m < k
  · rw [List.getElem?_take, List.getElem?_take]
    rw [if_pos hm, if_pos hm]
    exact List.getElem?_set_ne (by omega)
  · rw [List.getElem?_take, List.getElem?_take]
    rw [if_neg hm, if_neg hm]

theorem set_take_succ (ns : List Node) (k : ℕ) (n : Node) (h : k < ns.length) :
    (ns.set k n).take (k + 1) = ns.take k ++ [n] := by
  rw [take_succ_getD _ k (by rw [List.length_set]; exact h)]
  rw [set_take_front ns k n h]
  congr 1
  rw [List.getD_eq_getElem _ default (by rw [List.length_set]; exact h)]
  rw [List.getElem_set_self]

theorem getD_set_ne (ns : List Node) (k i : ℕ) (v : Node) (h : i ≠ k) :
    (ns.set k v).getD i default = ns.getD i default := by
  rw [List.getD_eq_getElem?_getD, List.getD_eq_getElem?_getD,
    List.getElem?_set_ne (by omega)]

theorem foldApply_changesAux (segL : ℝ) :
    ∀ (init : List Node) (k : ℕ) (ns : List Node),
    ns.length = k + init.length →
    (∀ i, k ≤ i → i < ns.length → ns.getD i default = ⟨segL, 0, 0⟩) →
    (∀ n ∈ init, n.length = segL) →
    (∀ n ∈ init, IsNull n.theta ∧ IsNull n.phi → n.theta = 0 ∧ n.phi = 0) →
    List.foldlM applyChange ns (changesAux k init) = some (ns.take k ++ init)
  | [], k, ns, hl, _, _, _ => by
    simp only [changesAux, List.foldlM_nil, List.append_nil]
    rw [List.take_of_length_le (by simp only [List.length_nil] at hl; omega)]
    rfl
  | n :: rest, k, ns, hl, hstraight, hseg, hnull => by
    obtain ⟨nl, nt, np⟩ := n
    have hnl : nl = segL := hseg ⟨nl, nt, np⟩ (List.mem_cons_self _ _)
    have hklen : k < ns.length := by
      simp only [List.length_cons] at hl
      omega
    have hsk : ns.getD k default = ⟨segL, 0, 0⟩ := hstraight k le_rfl hklen
    by_cases hrec : ¬IsNull nt ∨ ¬IsNull np
    · rw [show changesAux k (⟨nl, nt, np⟩ :: rest) =
        ⟨(k : ℤ), nt, np⟩ :: changesAux (k + 1) rest from by
          rw [changesAux, if_pos hrec]]
      rw [List.foldlM_cons]
      rw [applyChange_ok ns ⟨(k : ℤ), nt, np⟩ (by show ¬((k : ℤ) = -1); omega)
        ⟨by show (0 : ℤ) ≤ (k : ℤ); omega,
         by show ((k : ℤ) < (ns.length : ℤ)); exact_mod_cast hklen⟩]
      simp only [Int.toNat_natCast, hsk, zero_add]
      rw [Option.bind_eq_bind, Option.some_bind]
      rw [foldApply_changesAux segL rest (k + 1) (ns.set k ⟨segL, nt, np⟩)
        (by rw [List.length_set]; simp only [List.length_cons] at hl; omega)
        (by
          intro i hi hilen
          rw [List.length_set] at hilen
          rw [getD_set_ne ns k i _ (by omega)]
          exact hstraight i (by omega) hilen)
        (fun m hm => hseg m (List.mem_cons_of_mem _ hm))
        (fun m hm => hnull m (List.mem_cons_of_mem _ hm))]
      rw [set_take_succ ns k _ hklen, hnl]
      simp
    · rw [show changesAux k (⟨nl, nt, np⟩ :: rest) = changesAux (k + 1) rest from by
        rw [changesAux, if_neg hrec]]
      push_neg at hrec
      obtain ⟨ht0, hp0⟩ := hnull ⟨nl, nt, np⟩ (List.mem_cons_self _ _) hrec
      simp only [] at ht0 hp0
      rw [foldApply_changesAux segL rest (k + 1) ns
        (by simp only [List.length_cons] at hl; omega)
        (fun i hi hilen => hstraight i (by omega) hilen)
        (fun m hm => hseg m (List.mem_cons_of_mem _ hm))
        (fun m hm => hnull m (List.mem_cons_of_mem _ hm))]
      rw [take_succ_getD ns k hklen, hsk, hnl, ht0, hp0]
      simp

theorem prep_inv (P : MParams) (init : List Node) (v0 : ℝ)
    (hnum : init.length = P.num)
    (hseg : ∀ n ∈ init, n.length = P.segL)
    (hnull : ∀ n ∈ init, IsNull n.theta ∧ IsNull n.phi → n.theta = 0 ∧ n.phi = 0) :
    C2Inv P (prepState init v0) := by
  refine ⟨?_, rfl, hnum, hseg, by simp [prepState]⟩
  show List.foldlM applyChange (List.replicate P.num (⟨P.segL, 0, 0⟩ : Node))
    (changes init ++ [⟨-1, 0, 0⟩]) = some init
  rw [List.foldlM_append]
  rw [show changes init = changesAux 0 init from rfl]
  rw [foldApply_changesAux P.segL init 0 (List.replicate P.num ⟨P.segL, 0, 0⟩)
    (by rw [List.length_replicate]; omega)
    (by
      intro i _ hilen
      rw [List.length_replicate] at hilen
      rw [List.getD_eq_getElem?_getD, List.getElem?_replicate, if_pos hilen]
      rfl)
    hseg hnull]
  rw [List.take_zero, List.nil_append]
  rw [Option.bind_eq_bind, Option.some_bind, List.foldlM_cons,
    applyChange_mark init ⟨-1, 0, 0⟩ rfl]
  rw [Option.bind_eq_bind, Option.some_bind, List.foldlM_nil]
  rfl

theorem optStep_inv (P : MParams) (iter : ℕ) (s : MState) (o : OIn)
    (hinv : C2Inv P s) (ho : o.posDraw < P.num) :
    (∀ s2, optStep P iter s o = .next s2 → C2Inv P s2) ∧
    (∀ r s2, optStep P iter s o = .stop r s2 → C2Post P s2) := by
  obtain ⟨hrep, hnb, hlen, hseg, hpos⟩ := hinv
  have hpnum : s.pos.getD o.posDraw < P.num := by
    cases e : s.pos with
    | none => simpa using ho
    | some q => simpa using hpos q e
  have hplen : s.pos.getD o.posDraw < s.nodes.length := by omega
  have hndmem : s.nodes.getD (s.pos.getD o.posDraw) default ∈ s.nodes := by
    rw [List.getD_eq_getElem s.nodes default hplen]
    exact List.getElem_mem hplen
  have hndlen : (s.nodes.getD (s.pos.getD o.posDraw) default).length = P.segL :=
    hseg _ hndmem
  have hlen2 : (s.nodes.set (s.pos.getD o.posDraw)
      ⟨(s.nodes.getD (s.pos.getD o.posDraw) default).length,
       (s.nodes.getD (s.pos.getD o.posDraw) default).theta + 2 * (o.u - 0.5) * P.bendStep,
       (s.nodes.getD (s.pos.getD o.posDraw) default).phi⟩).length = P.num := by
    rw [List.length_set]; exact hlen
  have hseg2 : ∀ n ∈ s.nodes.set (s.pos.getD o.posDraw)
      ⟨(s.nodes.getD (s.pos.getD o.posDraw) default).length,
       (s.nodes.getD (s.pos.getD o.posDraw) default).theta + 2 * (o.u - 0.5) * P.bendStep,
       (s.nodes.getD (s.pos.getD o.posDraw) default).phi⟩, n.length = P.segL := by
    intro n hn
    rcases List.mem_or_eq_of_mem_set hn with hmem | heq
    · exact hseg n hmem
    · rw [heq]; exact hndlen
  have hrep2 : List.foldlM applyChange (List.replicate P.num (⟨P.segL, 0, 0⟩ : Node))
      (s.track ++ [⟨((s.pos.getD o.posDraw : ℕ) : ℤ), 2 * (o.u - 0.5) * P.bendStep, 0⟩]) =
      some (s.nodes.set (s.pos.getD o.posDraw)
        ⟨(s.nodes.getD (s.pos.getD o.posDraw) default).length,
         (s.nodes.getD (s.pos.getD o.posDraw) default).theta + 2 * (o.u - 0.5) * P.bendStep,
         (s.nodes.getD (s.pos.getD o.posDraw) default).phi⟩) := by
    rw [List.foldlM_append, hrep, Option.bind_eq_bind, Option.some_bind,
      List.foldlM_cons]
    rw [applyChange_ok s.bestNodes _
      (by show ¬(((s.pos.getD o.posDraw : ℕ) : ℤ) = -1); omega)
      ⟨by show (0 : ℤ) ≤ ((s.pos.getD o.posDraw : ℕ) : ℤ); omega,
       by show (((s.pos.getD o.posDraw : ℕ) : ℤ) < (s.bestNodes.length : ℤ))
          rw [← hnb]
          exact_mod_cast hplen⟩]
    rw [Option.bind_eq_bind, Option.some_bind, List.foldlM_nil]
    simp only [Int.toNat_natCast, ← hnb, add_zero]
    rfl
  constructor
  · intro s2 hstep
    by_cases h1 : |2 * (o.u - 0.5) * P.bendStep| < P.bendMin
    · rw [optStep_skip_bendMin P iter s o h1] at hstep
      cases hstep
      exact ⟨hrep, hnb, hlen, hseg, by simp⟩
    by_cases h2 : |(s.nodes.getD (s.pos.getD o.posDraw) default).theta +
        2 * (o.u - 0.5) * P.bendStep| > P.bendMax
    · rw [optStep_skip_bendMax P iter s o _ _ _ rfl rfl rfl h1 h2] at hstep
      cases hstep
      exact ⟨hrep, hnb, hlen, hseg, by simp⟩
    by_cases h3 : checkGeometry (s.nodes.set (s.pos.getD o.posDraw)
        ⟨(s.nodes.getD (s.pos.getD o.posDraw) default).length,
         (s.nodes.getD (s.pos.getD o.posDraw) default).theta + 2 * (o.u - 0.5) * P.bendStep,
         (s.nodes.getD (s.pos.getD o.posDraw) default).phi⟩)
    swap
    · rw [optStep_skip_geom P iter s o _ _ _ rfl rfl rfl h1 h2 h3] at hstep
      cases hstep
      exact ⟨hrep, hnb, hlen, hseg, by simp⟩
    by_cases h4 : o.zr < cfgMinZr ∨ o.zr > cfgMaxZr
    · rw [optStep_diverge P iter s o _ _ _ rfl rfl rfl h1 h2 h3 h4] at hstep
      cases hstep
    by_cases h5 : s.tries + 1 > s.maxTries + P.num * cfgMaxRounds
    · rw [optStep_exhaust P iter s o _ _ _ rfl rfl rfl h1 h2 h3 h4 h5] at hstep
      cases hstep
    by_cases h6 : o.val - s.bestVal > eps
    swap
    · rw [optStep_reject P iter s o _ _ _ rfl rfl rfl h1 h2 h3 h4 h5 h6] at hstep
      cases hstep
      exact ⟨hrep, hnb, hlen, hseg, by simp⟩
    by_cases h7 : iter = s.steps + 1
    · rw [optStep_iterCap P iter s o _ _ _ rfl rfl rfl h1 h2 h3 h4 h5 h6 h7] at hstep
      cases hstep
    by_cases h8 : (s.steps + 1) % cfgProgressCheck = 0
    swap
    · rw [optStep_accept P iter s o _ _ _ rfl rfl rfl h1 h2 h3 h4 h5 h6 h7 h8] at hstep
      cases hstep
      exact ⟨hrep2, rfl, hlen2, hseg2, by
        intro q hq
        simp only [Option.some_inj] at hq
        omega⟩
    cases hlv : s.lastVal with
    | none =>
      rw [optStep_boundary_first P iter s o _ _ _ rfl rfl rfl h1 h2 h3 h4 h5 h6 h7 h8
        hlv] at hstep
      cases hstep
      exact ⟨hrep2, rfl, hlen2, hseg2, by
        intro q hq
        simp only [Option.some_inj] at hq
        omega⟩
    | some lv =>
      by_cases hcv : o.val - lv < cfgMinChange
      · rw [optStep_boundary_conv P iter s o _ _ _ lv rfl rfl rfl h1 h2 h3 h4 h5 h6 h7 h8
          hlv hcv] at hstep
        cases hstep
      · rw [optStep_boundary_cont P iter s o _ _ _ lv rfl rfl rfl h1 h2 h3 h4 h5 h6 h7 h8
          hlv hcv] at hstep
        cases hstep
        exact ⟨hrep2, rfl, hlen2, hseg2, by
          intro q hq
          simp only [Option.some_inj] at hq
          omega⟩
  · intro r s2 hstep
    by_cases h1 : |2 * (o.u - 0.5) * P.bendStep| < P.bendMin
    · rw [optStep_skip_bendMin P iter s o h1] at hstep
      cases hstep
    by_cases h2 : |(s.nodes.getD (s.pos.getD o.posDraw) default).theta +
        2 * (o.u - 0.5) * P.bendStep| > P.bendMax
    · rw [optStep_skip_bendMax P iter s o _ _ _ rfl rfl rfl h1 h2] at hstep
      cases hstep
    by_cases h3 : checkGeometry (s.nodes.set (s.pos.getD o.posDraw)
        ⟨(s.nodes.getD (s.pos.getD o.posDraw) default).length,
         (s.nodes.getD (s.pos.getD o.posDraw) default).theta + 2 * (o.u - 0.5) * P.bendStep,
         (s.nodes.getD (s.pos.getD o.posDraw) default).phi⟩)
    swap
    · rw [optStep_skip_geom P iter s o _ _ _ rfl rfl rfl h1 h2 h3] at hstep
      cases hstep
    by_cases h4 : o.zr < cfgMinZr ∨ o.zr > cfgMaxZr
    · rw [optStep_diverge P iter s o _ _ _ rfl rfl rfl h1 h2 h3 h4] at hstep
      cases hstep
      exact hrep
    by_cases h5 : s.tries + 1 > s.maxTries + P.num * cfgMaxRounds
    · rw [optStep_exhaust P iter s o _ _ _ rfl rfl rfl h1 h2 h3 h4 h5] at hstep
      cases hstep
      exact hrep
    by_cases h6 : o.val - s.bestVal > eps
    swap
    · rw [optStep_reject P iter s o _ _ _ rfl rfl rfl h1 h2 h3 h4 h5 h6] at hstep
      cases hstep
    by_cases h7 : iter = s.steps + 1
    · rw [optStep_iterCap P iter s o _ _ _ rfl rfl rfl h1 h2 h3 h4 h5 h6 h7] at hstep
      cases hstep
      exact hrep2
    by_cases h8 : (s.steps + 1) % cfgProgressCheck = 0
    swap
    · rw [optStep_accept P iter s o _ _ _ rfl rfl rfl h1 h2 h3 h4 h5 h6 h7 h8] at hstep
      cases hstep
    cases hlv : s.lastVal with
    | none =>
      rw [optStep_boundary_first P iter s o _ _ _ rfl rfl rfl h1 h2 h3 h4 h5 h6 h7 h8
        hlv] at hstep
      cases hstep
    | some lv =>
      by_cases hcv : o.val - lv < cfgMinChange
      · rw [optStep_boundary_conv P iter s o _ _ _ lv rfl rfl rfl h1 h2 h3 h4 h5 h6 h7 h8
          hlv hcv] at hstep
        cases hstep
        exact hrep2
      · rw [optStep_boundary_cont P iter s o _ _ _ lv rfl rfl rfl h1 h2 h3 h4 h5 h6 h7 h8
          hlv hcv] at hstep
        cases hstep

theorem runOpt_replay (P : MParams) (iter : ℕ) (os : ℕ → OIn)
    (hos : ∀ j, (os j).posDraw < P.num) :
    ∀ (fuel i : ℕ) (s : MState), C2Inv P s →
      C2Post P (runOpt P iter os fuel i s).state
  | 0, i, s, hinv => hinv.1
  | Nat.succ n, i, s, hinv => by
    rw [runOpt_succ]
    cases hstep : optStep P iter s (os i) with
    | next s2 =>
      exact runOpt_replay P iter os hos n (i + 1) s2
        ((optStep_inv P iter s (os i) hinv (hos i)).1 s2 hstep)
    | stop r s2 =>
      exact (optStep_inv P iter s (os i) hinv (hos i)).2 r s2 hstep

/-- C2 (amended): for every bend2d run whose initial leg has the recorded
segment count and segment length, whose non-null initial angles are exactly
zero, and whose joint draws are in range, replaying the final track against
the straight starting leg reproduces the best leg of the run. -/
theorem C2_amended (P : MParams) (iter : ℕ) (os : ℕ → OIn) (fuel i : ℕ)
    (init : List Node) (v0 : ℝ)
    (hnum : init.length = P.num)
    (hseg : ∀ n ∈ init, n.length = P.segL)
    (hnull : ∀ n ∈ init, IsNull n.theta ∧ IsNull n.phi → n.theta = 0 ∧ n.phi = 0)
    (hos : ∀ j, (os j).posDraw < P.num) :
    TrackList.nodesOpt
      ⟨P.segL, P.num, (runOpt P iter os fuel i (prepState init v0)).state.track⟩ =
      some (runOpt P iter os fuel i (prepState init v0)).state.bestNodes :=
  runOpt_replay P iter os hos fuel i (prepState init v0)
    (prep_inv P init v0 hnum hseg hnull)

theorem changesAux_null : ∀ (k : ℕ) (ns : List Node),
    (∀ n ∈ ns, IsNull n.theta ∧ IsNull n.phi) → changesAux k ns = []
  | _, [], _ => rfl
  | k, n :: rest, h => by
    unfold changesAux
    rw [if_neg (by push_neg; exact h n (by simp))]
    exact changesAux_null (k + 1) rest (fun m hm => h m (by simp [hm]))

theorem c2_prep : prepState exC2init 0 =
    { nodes := exC2init
      bestNodes := exC2init
      bestVal := 0
      track := [⟨-1, 0, 0⟩]
      pos := none
      steps := 0
      tries := 0
      maxTries := 0
      lastVal := none } := by
  unfold prepState changes
  rw [changesAux_null 0 exC2init (by
    intro n hn
    simp only [exC2init, List.mem_singleton] at hn
    subst hn
    constructor
    · show IsNull ((1e-10 : ℝ))
      unfold IsNull eps
      rw [abs_of_nonneg (by norm_num)]
      norm_num
    · show IsNull ((0 : ℝ))
      unfold IsNull eps
      rw [abs_of_nonneg le_rfl]
      norm_num)]
  simp only [List.nil_append]

theorem c2_run : exC2run = .out .diverged
    { nodes := [⟨1, 1e-10 + 0.3, 0⟩]
      bestNodes := exC2init
      bestVal := 0
      track := [⟨-1, 0, 0⟩]
      pos := some 0
      steps := 0
      tries := 0
      maxTries := 0
      lastVal := none } := by
  unfold exC2run
  rw [c2_prep]
  rw [show (1 : ℕ) = 0 + 1 from rfl, runOpt_succ]
  have hstep := optStep_diverge exP1 0
    { nodes := exC2init
      bestNodes := exC2init
      bestVal := 0
      track := [⟨-1, 0, 0⟩]
      pos := none
      steps := 0
      tries := 0
      maxTries := 0
      lastVal := none } (exC2os 0) 0 0.3 ⟨1, 1e-10, 0⟩
    rfl (by norm_num [exC2os, exP1]) rfl
    (by rw [not_lt, abs_point_three]; norm_num [exP1])
    (by
      show ¬(|(1e-10 : ℝ) + 0.3| > exP1.bendMax)
      rw [abs_of_nonneg (by norm_num)]
      norm_num [exP1])
    (by
      show checkGeometry [⟨1, (1e-10 : ℝ) + 0.3, 0⟩]
      apply checkGeometry_one
      rw [abs_of_nonneg (by norm_num)]
      norm_num)
    (by norm_num [exC2os, cfgMinZr, cfgMaxZr])
  rw [hstep]
  rfl

/-- C2 (counterexample): a run whose initial leg carries a tiny but
non-zero angle (below the `IsNull` threshold, as a volatile generator may
produce) cannot be replayed: the change-log fold drops the sub-epsilon
angle, so replaying the final track yields a straight node instead of the
best leg returned by the run. -/
theorem C2_counterexample :
    exC2run.state.bestNodes = [⟨1, 1e-10, 0⟩] ∧
    TrackList.nodesOpt ⟨exP1.segL, exP1.num, exC2run.state.track⟩ = some [⟨1, 0, 0⟩] ∧
    TrackList.nodesOpt ⟨exP1.segL, exP1.num, exC2run.state.track⟩ ≠
      some exC2run.state.bestNodes := by
  have hb : exC2run.state.bestNodes = [⟨1, 1e-10, 0⟩] := by rw [c2_run]; rfl
  have ht : exC2run.state.track = [⟨-1, 0, 0⟩] := by rw [c2_run]; rfl
  have hr : TrackList.nodesOpt ⟨exP1.segL, exP1.num, exC2run.state.track⟩ =
      some [⟨1, 0, 0⟩] := by
    rw [ht]
    show List.foldlM applyChange (List.replicate exP1.num ⟨exP1.segL, 0, 0⟩)
      [⟨-1, 0, 0⟩] = some [⟨1, 0, 0⟩]
    rw [List.foldlM_cons, applyChange_mark _ _ rfl, Option.bind_eq_bind,
      Option.some_bind, List.foldlM_nil]
    rfl
  refine ⟨hb, hr, ?_⟩
  rw [hr, hb]
  intro hc
  simp only [Option.some_inj, List.cons.injEq, Node.mk.injEq] at hc
  have h0 : (0 : ℝ) = 1e-10 := hc.1.2.1
  norm_num at h0

/-- C2 witness: the amended round-trip theorem applied to a concrete
one-joint run (straight initial leg, one diverging evaluation): replaying
the final track reproduces the best leg. -/
theorem C2_witness :
    ([⟨1, 0, 0⟩] : List Node).length = exP1.num ∧
    (∀ j, (exC2os j).posDraw < exP1.num) ∧
    TrackList.nodesOpt
      ⟨exP1.segL, exP1.num,
        (runOpt exP1 0 exC2os 1 0 (prepState [⟨1, 0, 0⟩] 0)).state.track⟩ =
      some (runOpt exP1 0 exC2os 1 0 (prepState [⟨1, 0, 0⟩] 0)).state.bestNodes := by
  refine ⟨rfl, fun j => by show (0 : ℕ) < 1; norm_num,
    C2_amended exP1 0 exC2os 1 0 [⟨1, 0, 0⟩] 0 rfl ?_ ?_ ?_⟩
  · intro n hn
    simp only [List.mem_singleton] at hn
    subst hn
    rfl
  · intro n hn
    simp only [List.mem_singleton] at hn
    subst hn
    exact fun _ => ⟨rfl, rfl⟩
  · intro j
    show (0 : ℕ) < 1
    norm_num

/-! ### C9: the bounded random walk and the validity check -/

theorem goMod_wrap (v y : ℝ) (hy : 0 < y) (h1 : y ≤ v) (h2 : v < 2 * y) :
    goMod v y = v - y := by
  unfold goMod
  have hvy1 : 1 ≤ v / y := (le_div_iff₀ hy).mpr (by linarith)
  have hvy2 : v / y < 2 := (div_lt_iff₀ hy).mpr (by linarith)
  rw [if_pos (by linarith)]
  rw [show ⌊v / y⌋ = 1 from Int.floor_eq_iff.mpr
    ⟨by exact_mod_cast hvy1, by push_cast; linarith⟩]
  push_cast
  ring

theorem bendMax_c9 : BendMax (cfgMinRadius * 100) (2 * Real.pi) = Real.pi / 2 := by
  unfold BendMax cfgMinRadius CircAng
  have hq : 2 * Real.pi * (0.02 * 100) / (2 * Real.pi) = 2 := by
    rw [mul_comm, mul_div_assoc, div_self (by positivity : (2 : ℝ) * Real.pi ≠ 0)]
    norm_num
  show Real.pi / ((⌈2 * Real.pi * (0.02 * 100) / (2 * Real.pi)⌉ : ℤ) : ℝ) = Real.pi / 2
  rw [hq]
  rw [show ⌈(2 : ℝ)⌉ = (2 : ℤ) from by norm_num]
  norm_num

theorem strollAux_step_nocorr (segL bm : ℝ) (us : ℕ → ℝ) (m i : ℕ) (dir x : ℝ)
    (h : ¬(x + segL * Real.cos (dir + 2 * (us i - 0.5) * bm) < 4 * segL ∧
        InRange dir RectAng (3 * RectAng))) :
    strollAux segL bm us (m + 1) i dir x =
      ⟨segL, 2 * (us i - 0.5) * bm, 0⟩ ::
        strollAux segL bm us m (i + 1)
          (goMod (CircAng + dir + 2 * (us i - 0.5) * bm) CircAng)
          (x + segL * Real.cos (dir + 2 * (us i - 0.5) * bm)) := by
  simp only [strollAux]
  rw [if_neg h]

theorem exC9_ang (i : ℕ) : 2 * (exC9us i - 0.5) * (Real.pi / 2) =
    Real.pi / 2 - 1e-9 := by
  unfold exC9us
  have hpi : Real.pi ≠ 0 := Real.pi_ne_zero
  field_simp
  ring

theorem notInRange_zero : ¬InRange 0 RectAng (3 * RectAng) := by
  intro hB
  unfold InRange RectAng eps at hB
  nlinarith [Real.pi_gt_three, hB.1]

theorem notInRange_edge : ¬InRange (Real.pi / 2 - 1e-9) RectAng (3 * RectAng) := by
  intro hB
  unfold InRange RectAng eps at hB
  have h1 := hB.1
  linarith

theorem exC9_eval : exC9nodes = [⟨2 * Real.pi, Real.pi / 2 - 1e-9, 0⟩,
    ⟨2 * Real.pi, Real.pi / 2 - 1e-9, 0⟩] := by
  have hpi := Real.pi_gt_three
  have hpi4 := Real.pi_le_four
  unfold exC9nodes strollNodes
  rw [bendMax_c9]
  rw [strollAux_step_nocorr (2 * Real.pi) (Real.pi / 2) exC9us 1 0 0 0
    (fun hc => notInRange_zero hc.2)]
  simp only [exC9_ang]
  rw [show goMod (CircAng + 0 + (Real.pi / 2 - 1e-9)) CircAng =
      Real.pi / 2 - 1e-9 from by
    unfold CircAng
    rw [goMod_wrap _ _ (by positivity) (by linarith) (by linarith)]
    ring]
  rw [strollAux_step_nocorr (2 * Real.pi) (Real.pi / 2) exC9us 0 1
    (Real.pi / 2 - 1e-9) (0 + 2 * Real.pi * Real.cos (0 + (Real.pi / 2 - 1e-9)))
    (fun hc => notInRange_edge hc.2)]
  simp only [exC9_ang]
  rfl

theorem checkGeomAux_two (d : ℝ) (pos : Vec3) (dir : ℝ) (n1 n2 : Node)
    (h1 : ¬((pos.move2D n1.length (goMod (dir + n1.theta) CircAng)).x < d / 2))
    (h2 : ((pos.move2D n1.length (goMod (dir + n1.theta) CircAng)).move2D n2.length
        (goMod (goMod (dir + n1.theta) CircAng + n2.theta) CircAng)).x < d / 2) :
    ¬checkGeomAux d pos dir [n1, n2] := by
  intro h
  simp only [checkGeomAux] at h
  rw [if_neg h1, if_pos h2] at h
  exact h

theorem strollAux_length (segL bm : ℝ) (us : ℕ → ℝ) :
    ∀ (m i : ℕ) (dir x : ℝ) (n : Node), n ∈ strollAux segL bm us m i dir x →
      n.length = segL
  | 0, _, _, _, n, hn => absurd hn (List.not_mem_nil n)
  | m + 1, i, dir, x, n, hn => by
    simp only [strollAux, List.mem_cons] at hn
    rcases hn with hn | hn
    · subst hn
      rfl
    · exact strollAux_length segL bm us m (i + 1) _ _ n hn

/-- C9 (counterexample): for wavelength 100, two nodes and segment length
`2π` (so that the per-joint limit is `π/2`), the random stream drawing
`π/2 - 1e-9` at every step produces a leg that fails the optimizer's own
validity check: the first turn leaves the direction just outside the
corrected half-circle window (the `InRange` test is strictly false at the
window edge), so the second segment walks backwards past the feed line. -/
theorem C9_counterexample :
    (∀ i, 0 ≤ exC9us i ∧ exC9us i < 1) ∧ ¬checkGeometry exC9nodes := by
  have hpi := Real.pi_gt_three
  have hpi4 := Real.pi_le_four
  constructor
  · intro i
    unfold exC9us
    constructor
    · have h1 : (0 : ℝ) ≤ (Real.pi / 2 - 1e-9) / Real.pi :=
        div_nonneg (by linarith) (by linarith)
      linarith
    · have h1 : (Real.pi / 2 - 1e-9) / Real.pi < 1 / 2 := by
        rw [div_lt_iff₀ (by linarith)]
        linarith
      linarith
  · rw [exC9_eval]
    show ¬checkGeomAux (2 * Real.pi) ⟨2 * Real.pi / 2, 0, 0⟩ 0
      [⟨2 * Real.pi, Real.pi / 2 - 1e-9, 0⟩, ⟨2 * Real.pi, Real.pi / 2 - 1e-9, 0⟩]
    have hg1 : goMod ((0 : ℝ) + (Real.pi / 2 - 1e-9)) CircAng =
        0 + (Real.pi / 2 - 1e-9) := by
      apply goMod_small _ _ circAng_pos
      rw [zero_add, abs_of_nonneg (by linarith)]
      unfold CircAng
      linarith
    have hg2 : goMod ((0 : ℝ) + (Real.pi / 2 - 1e-9) + (Real.pi / 2 - 1e-9)) CircAng =
        0 + (Real.pi / 2 - 1e-9) + (Real.pi / 2 - 1e-9) := by
      apply goMod_small _ _ circAng_pos
      rw [zero_add, abs_of_nonneg (by linarith)]
      unfold CircAng
      linarith
    have hcos1 : Real.cos ((0 : ℝ) + (Real.pi / 2 - 1e-9)) = Real.sin 1e-9 := by
      rw [zero_add]
      exact Real.cos_pi_div_two_sub 1e-9
    have hcos2 : Real.cos ((0 : ℝ) + (Real.pi / 2 - 1e-9) + (Real.pi / 2 - 1e-9)) =
        -Real.cos 2e-9 := by
      rw [show (0 : ℝ) + (Real.pi / 2 - 1e-9) + (Real.pi / 2 - 1e-9) =
        Real.pi - 2e-9 from by ring]
      exact Real.cos_pi_sub 2e-9
    have hsin : Real.sin 1e-9 < 1e-9 := Real.sin_lt (by norm_num)
    have hsinpos : 0 < Real.sin 1e-9 :=
      Real.sin_pos_of_pos_of_lt_pi (by norm_num) (by linarith)
    have hcosb : (1 : ℝ) / 2 < Real.cos 2e-9 := by
      have h := Real.cos_lt_cos_of_nonneg_of_le_pi (by norm_num : (0 : ℝ) ≤ 2e-9)
        (by linarith : Real.pi / 3 ≤ Real.pi) (by linarith : (2e-9 : ℝ) < Real.pi / 3)
      rw [Real.cos_pi_div_three] at h
      exact h
    apply checkGeomAux_two
    · show ¬((Vec3.move2D ⟨2 * Real.pi / 2, 0, 0⟩ (2 * Real.pi)
        (goMod (0 + (Real.pi / 2 - 1e-9)) CircAng)).x < 2 * Real.pi / 2)
      rw [hg1]
      show ¬(2 * Real.pi / 2 + 2 * Real.pi * Real.cos (0 + (Real.pi / 2 - 1e-9)) <
        2 * Real.pi / 2)
      rw [hcos1]
      nlinarith
    · rw [hg1]
      show (Vec3.move2D ⟨2 * Real.pi / 2, 0, 0⟩ (2 * Real.pi)
          (0 + (Real.pi / 2 - 1e-9))).x + 2 * Real.pi *
          Real.cos (goMod (0 + (Real.pi / 2 - 1e-9) + (Real.pi / 2 - 1e-9)) CircAng) <
        2 * Real.pi / 2
      rw [hg2]
      show 2 * Real.pi / 2 + 2 * Real.pi * Real.cos (0 + (Real.pi / 2 - 1e-9)) +
          2 * Real.pi * Real.cos (0 + (Real.pi / 2 - 1e-9) + (Real.pi / 2 - 1e-9)) <
        2 * Real.pi / 2
      rw [hcos1, hcos2]
      nlinarith

/-- C9 (amended): a stroll-generated leg passes the optimizer's validity
check whenever the segment length is non-negative and every accumulated
walk direction of the generated leg has non-negative cosine (i.e. the walk
never points backwards); the unconditional claim fails at the correction
window's edge. -/
theorem C9_amended (lambda : ℝ) (num : ℕ) (segL : ℝ) (us : ℕ → ℝ)
    (hseg : 0 ≤ segL)
    (hcos : ∀ θ ∈ dirsOf 0 (strollNodes lambda num segL us), 0 ≤ Real.cos θ) :
    checkGeometry (strollNodes lambda num segL us) :=
  checkGeometry_of_cos _ hcos (fun n hn =>
    (strollAux_length segL (BendMax (cfgMinRadius * lambda) segL) us num 0 0 0
      n hn) ▸ hseg)

theorem c9w_eval : strollNodes 100 1 1 (fun _ => (1 : ℝ) / 2) = [⟨1, 0, 0⟩] := by
  unfold strollNodes
  rw [strollAux_step_nocorr 1 (BendMax (cfgMinRadius * 100) 1) (fun _ => (1 : ℝ) / 2)
    0 0 0 0 (fun hc => notInRange_zero hc.2)]
  rw [show 2 * (((fun _ => (1 : ℝ) / 2) 0) - 0.5) * BendMax (cfgMinRadius * 100) 1 =
    0 from by norm_num]
  simp only [strollAux]

/-- C9 witness: the amended validity statement at a concrete input — one
stroll node for segment length 1 with the central draw `1/2` (no turn):
the hypotheses hold and the generated leg passes the check. -/
theorem C9_witness :
    (0 : ℝ) ≤ 1 ∧ checkGeometry (strollNodes 100 1 1 (fun _ => (1 : ℝ) / 2)) := by
  refine ⟨by norm_num, C9_amended 100 1 1 (fun _ => (1 : ℝ) / 2) (by norm_num) ?_⟩
  rw [c9w_eval]
  intro θ hθ
  simp only [dirsOf, List.mem_cons, List.not_mem_nil, or_false] at hθ
  subst hθ
  rw [show (0 : ℝ) + (0 : ℝ) = 0 from by norm_num]
  rw [goMod_small 0 CircAng circAng_pos (by rw [abs_of_nonneg le_rfl]; exact circAng_pos)]
  rw [Real.cos_zero]
  norm_num
